import Mathlib

/-!
Verification of the BeagleMind-CLI core against its specification.

This file gives a shallow embedding, in Lean 4, of the components of the
BeagleMind-CLI repository that the verified properties talk about:

* the argument-recovery parser (`src/services/tool_service.py`),
* the permission gate (`ToolService.execute_tool_with_feedback`),
* the tool dispatcher (`src/tools/__init__.py`, `ToolRegistry.execute_tool`),
* the file tools `write_file` and `edit_file_lines` (`src/tools/file_tools.py`),
* the shell tool `run_command` with its deny-list (`src/tools/system_tools.py`),
* the LLM failover chain (`LLMService.call_llm_with_fallback`,
  `src/services/llm_service.py`),
* the traditional (non-tool) RAG answering path
  (`QASystem._traditional_rag_response`, `src/qa_system.py`), and
* the tool-calling orchestration loop (`QASystem.chat_with_tools`).

Modelling conventions:

* Python dictionaries used as tool arguments / tool results are embedded as
  association lists `RDict := List (String × JVal)`; a missing key is `none`
  under `dget`.  The value universe `JVal` covers the value shapes the
  modelled code paths actually produce (strings, booleans, integers,
  string-to-string maps, lists of strings, `None`).
* External effects (network calls to LLM backends and to the retrieval
  service, the subprocess layer, console input, directory listings) are
  parameters of the embedding: oracles passed in as plain functions, with
  `Except String` for Python exceptions.  Spies on external calls (e.g.
  "the subprocess layer was never invoked") are modelled by returning the
  list of calls made alongside the result.
* The filesystem is a map from (resolved) paths to file contents.
* Python string primitives used by the code (`str.count`, `str.replace`,
  `str.strip`, `str.split`, `str.splitlines`, `readlines`, `int(...)`) are
  re-implemented with their Python semantics over ASCII text; the regular
  expressions appearing in the source are compiled by hand into
  deterministic matchers, which is faithful because in every pattern the
  character classes of adjacent pieces are disjoint.
-/

set_option autoImplicit false

namespace BeagleMind

/-! ## JSON-like values and result dictionaries -/

/-- The universe of Python values flowing through the modelled tool-argument
and tool-result dictionaries. -/
inductive JVal where
  | s (v : String)
  | b (v : Bool)
  | i (v : Int)
  | strMap (kvs : List (String × String))
  | strs (vs : List String)
  | null
  deriving Repr, DecidableEq

/-- A Python dict with string keys, as an association list (first hit wins). -/
def RDict := List (String × JVal)

instance : DecidableEq RDict := by
  unfold RDict
  infer_instance

instance : Repr RDict := by
  unfold RDict
  infer_instance

instance : Membership (String × JVal) RDict := by
  unfold RDict
  infer_instance

/-- `d.get(k)` / `d[k]`: first value bound to `k`, if any. -/
def dget (d : RDict) (k : String) : Option JVal :=
  match d with
  | [] => none
  | (k', v) :: rest => if k' = k then some v else dget rest k

/-- Python truthiness of an optional value (`None`, `""`, `{}`, `[]`, `False`,
`0` are falsy; a missing value behaves like `None`). -/
def jtruthy : Option JVal → Bool
  | none => false
  | some (JVal.s v) => v ≠ ""
  | some (JVal.b v) => v
  | some (JVal.i v) => v ≠ 0
  | some (JVal.strMap kvs) => kvs ≠ []
  | some (JVal.strs vs) => vs ≠ []
  | some JVal.null => false

/-- Python `a or b` on optional values: keep `a` when truthy, else `b`. -/
def orElsePy (a b : Option JVal) : Option JVal :=
  if jtruthy a then a else b

/-! ## Python string semantics over ASCII text -/

/-- Python whitespace (`str.split`, `str.strip`, regex `\s`), ASCII part. -/
def isSpacePy (c : Char) : Bool :=
  c = ' ' ∨ c = '\t' ∨ c = '\n' ∨ c = '\x0d' ∨ c = '\x0b' ∨ c = '\x0c'

/-- Word characters for the regex `\b` boundary (`[A-Za-z0-9_]`). -/
def isWordChar (c : Char) : Bool :=
  c.isAlpha ∨ c.isDigit ∨ c = '_'

/-- Does `sub` stand at the head of `l`? -/
def leadsWith : List Char → List Char → Bool
  | [], _ => true
  | _ :: _, [] => false
  | a :: as, b :: bs => a == b && leadsWith as bs

/-- Substring test, Python `sub in s`. -/
def hasSub (sub : List Char) : List Char → Bool
  | [] => leadsWith sub []
  | c :: t => leadsWith sub (c :: t) || hasSub sub t

/-- Python `s.count(sub)` for non-empty `sub`: non-overlapping occurrences,
scanned left to right. -/
def subCount (sub : List Char) : List Char → Nat
  | [] => 0
  | c :: t =>
    if h : sub ≠ [] ∧ leadsWith sub (c :: t) then
      1 + subCount sub ((c :: t).drop sub.length)
    else subCount sub t
termination_by l => l.length
decreasing_by
  · have hs : 0 < sub.length := List.length_pos.mpr h.1
    simp only [List.length_drop, List.length_cons]
    omega
  · simp

/-- Python `s.replace(sub, repl)` for non-empty `sub`: non-overlapping
leftmost occurrences replaced. -/
def subReplace (sub repl : List Char) : List Char → List Char
  | [] => []
  | c :: t =>
    if h : sub ≠ [] ∧ leadsWith sub (c :: t) then
      repl ++ subReplace sub repl ((c :: t).drop sub.length)
    else c :: subReplace sub repl t
termination_by l => l.length
decreasing_by
  · have hs : 0 < sub.length := List.length_pos.mpr h.1
    simp only [List.length_drop, List.length_cons]
    omega
  · simp

/-- `s.count(sub)` on strings. -/
def pyCount (s sub : String) : Nat := subCount sub.toList s.toList

/-- `sub in s` on strings. -/
def pyIn (sub s : String) : Bool := hasSub sub.toList s.toList

/-- `s.replace(sub, repl)` on strings. -/
def pyReplace (s sub repl : String) : String := ⟨subReplace sub.toList repl.toList s.toList⟩

/-- Python `s.strip()` on character lists. -/
def stripChars (l : List Char) : List Char :=
  ((l.dropWhile isSpacePy).reverse.dropWhile isSpacePy).reverse

/-- One-pass worker for Python `s.split()`: `cur` holds the reversed current
word. -/
def pyWordsAux (cur : List Char) : List Char → List (List Char)
  | [] => if cur = [] then [] else [cur.reverse]
  | c :: t =>
    if isSpacePy c then
      if cur = [] then pyWordsAux [] t else cur.reverse :: pyWordsAux [] t
    else pyWordsAux (c :: cur) t

/-- Python `s.split()` (split on whitespace runs, no empty words). -/
def pyWords (l : List Char) : List (List Char) :=
  pyWordsAux [] l

/-- `' '.join(words)` on character lists. -/
def joinSpace : List (List Char) → List Char
  | [] => []
  | [w] => w
  | w :: ws => w ++ ' ' :: joinSpace ws

/-- Python `' '.join(s.split())`: collapse whitespace runs to single spaces
and trim the ends. -/
def collapseChars (l : List Char) : List Char := joinSpace (pyWords l)

/-- String version of `collapseChars`. -/
def pyCollapse (s : String) : String := ⟨collapseChars s.toList⟩

/-- Python `f.readlines()` on a text `s`: split after every newline, keeping
the newline terminators; a final fragment without a newline is kept too. -/
def readLinesAux (cur : List Char) : List Char → List (List Char)
  | [] => if cur = [] then [] else [cur.reverse]
  | c :: t =>
    if c = '\n' then ('\n' :: cur).reverse :: readLinesAux [] t
    else readLinesAux (c :: cur) t

/-- `readlines` on strings. -/
def pyReadlines (s : String) : List String :=
  (readLinesAux [] s.toList).map fun l => ⟨l⟩

/-- Python `s.splitlines()` (no kept ends) over `\n`, `\r` and `\r\n`. -/
def splitlinesAux (cur : List Char) : List Char → List (List Char)
  | [] => if cur = [] then [] else [cur.reverse]
  | '\x0d' :: '\n' :: t => cur.reverse :: splitlinesAux [] t
  | '\x0d' :: t => cur.reverse :: splitlinesAux [] t
  | '\n' :: t => cur.reverse :: splitlinesAux [] t
  | c :: t => splitlinesAux (c :: cur) t

/-- `splitlines` on strings. -/
def pySplitlines (s : String) : List String :=
  (splitlinesAux [] s.toList).map fun l => ⟨l⟩

/-- Python `s.lower()` (list-based, so that it reduces in the kernel;
`Char.toLower` covers the ASCII range the modelled code compares). -/
def toLowerPy (s : String) : String :=
  ⟨s.toList.map Char.toLower⟩

/-- Python `s.endswith(suf)` (list-based, so that it reduces in the kernel). -/
def endsWithPy (suf s : String) : Bool :=
  leadsWith suf.toList.reverse s.toList.reverse

/-- Digits of a decimal literal, if all characters are digits and nonempty. -/
def digitsToNat : List Char → Option Nat
  | [] => none
  | ds =>
    if ds.all Char.isDigit then
      some (ds.foldl (fun acc c => acc * 10 + (c.toNat - '0'.toNat)) 0)
    else none

/-- Python `int(s)`: surrounding whitespace allowed, optional sign, decimal
digits (digit-group underscores are not modelled); `none` models the
`ValueError`. -/
def pyToInt (s : String) : Option Int :=
  match stripChars s.toList with
  | '+' :: ds => (digitsToNat ds).map Int.ofNat
  | '-' :: ds => (digitsToNat ds).map fun n => -(n : Int)
  | ds => (digitsToNat ds).map Int.ofNat

/-! ## Argument Recovery Parser (`src/services/tool_service.py`)

`ToolService.parse_tool_arguments` first tries `json.loads`; the outcome of
`json.loads` is a parameter of the embedding (`jsonLoads`), since the claims
only ever constrain it to fail.  On failure the code falls back to per-tool
regex recovery.  The three `run_command` regexes

* `"command":\s*"([^"]*)"`
* `"command":\s*"([^"]*?)(?:"|$)`
* `"command":\s*([^,}]*)`

are compiled by hand: `re.search` tries every start position left to right,
and each start position must begin with the literal `"command":`, so the
search enumerates the suffixes following each occurrence of that literal. -/

/-- The characters of the literal `"command":`. -/
def cmdKey : List Char := '"' :: ("command".toList ++ ['"', ':'])

/-- The suffixes of `l` standing right after each occurrence of `key`,
leftmost occurrence first. -/
def keySuffixes (key : List Char) : List Char → List (List Char)
  | [] => []
  | c :: t =>
    (if leadsWith key (c :: t) then [(c :: t).drop key.length] else []) ++
      keySuffixes key t

/-- First `some` produced by `f` along `l` (the regex search order). -/
def firstSome {α β : Type} (f : α → Option β) : List α → Option β
  | [] => none
  | a :: t =>
    match f a with
    | some b => some b
    | none => firstSome f t

/-- Tail matcher for `"command":\s*"([^"]*)"` at a suffix `t` standing after
the literal: greedy `\s*`, an opening quote, then the group runs to the next
quote, which must exist. -/
def cmdP1At (t : List Char) : Option (List Char) :=
  if (t.dropWhile isSpacePy).head? = some '"' then
    if ((t.dropWhile isSpacePy).tail.takeWhile fun c => c ≠ '"').length <
        (t.dropWhile isSpacePy).tail.length then
      some ((t.dropWhile isSpacePy).tail.takeWhile fun c => c ≠ '"')
    else none
  else none

/-- Lazy group of `([^"]*?)(?:"|$)` on the text after the opening quote:
stop at the first quote; with no quote, `$` matches at the end of the input
or just before a trailing newline. -/
def cmdLazyGroup (rest : List Char) : List Char :=
  let g := rest.takeWhile (fun c => c ≠ '"')
  if g.length < rest.length then g
  else
    match rest.getLast? with
    | some c => if c = '\n' then rest.dropLast else rest
    | none => rest

/-- Tail matcher for `"command":\s*"([^"]*?)(?:"|$)`. -/
def cmdP2At (t : List Char) : Option (List Char) :=
  if (t.dropWhile isSpacePy).head? = some '"' then
    some (cmdLazyGroup (t.dropWhile isSpacePy).tail)
  else none

/-- Tail matcher for `"command":\s*([^,}]*)`: always matches; greedy `\s*`
then the group runs to the first comma or closing brace. -/
def cmdP3At (t : List Char) : List Char :=
  (t.dropWhile isSpacePy).takeWhile fun c => c ≠ ',' ∧ c ≠ '\x7d'

/-- Characters the last-resort line scan keeps (`[^a-zA-Z0-9\s\-\./_><=;]`
is replaced by a space). -/
def cmdLineKeep (c : Char) : Bool :=
  c.isAlpha ∨ c.isDigit ∨ isSpacePy c ∨
    c = '-' ∨ c = '.' ∨ c = '/' ∨ c = '_' ∨ c = '>' ∨ c = '<' ∨ c = '=' ∨ c = ';'

/-- The `echo 'Extracted: …'` synthesized by the line scan. -/
def extractedEcho (cleanedStripped : List Char) : String :=
  "echo 'Extracted: " ++ (⟨cleanedStripped.take 50⟩ : String) ++ "'"

/-- The last-resort line scan of `_parse_command_arguments`: the first line
that mentions `command` (case-insensitively) and survives the character
cleanup non-trivially. -/
def cmdLineScan (argsStr : String) : RDict :=
  match (argsStr.splitOn "\n").find? (fun line =>
      hasSub "command".toList (line.toList.map Char.toLower) ∧
        stripChars (line.toList.map fun c => if cmdLineKeep c then c else ' ') ≠ []) with
  | some line =>
    [("command", JVal.s (extractedEcho
      (stripChars (line.toList.map fun c => if cmdLineKeep c then c else ' '))))]
  | none => [("command", JVal.s "echo 'Could not parse command'")]

/-- `ToolService._parse_command_arguments`: layered regex recovery of a
`command` field from malformed JSON. -/
def parseCommandArguments (argsStr : String) : RDict :=
  match firstSome cmdP1At (keySuffixes cmdKey argsStr.toList) with
  | some g => [("command", JVal.s ⟨collapseChars (stripChars g)⟩)]
  | none =>
    match firstSome cmdP2At (keySuffixes cmdKey argsStr.toList) with
    | some g => [("command", JVal.s ⟨collapseChars (stripChars g)⟩)]
    | none =>
      match (keySuffixes cmdKey argsStr.toList).head? with
      | some t => [("command", JVal.s ⟨collapseChars (stripChars (cmdP3At t))⟩)]
      | none => cmdLineScan argsStr

/-- Complete-quoted-field matcher `"<key>":\s*"([^"]*)"` searched over a
whole argument string (used for `file_path` and `content`). -/
def quotedField (key : String) (argsStr : String) : Option String :=
  (firstSome cmdP1At (keySuffixes ('"' :: (key.toList ++ ['"', ':'])) argsStr.toList)).map
    fun g => ⟨g⟩

/-- `ToolService._parse_write_file_arguments`. -/
def parseWriteFileArguments (argsStr : String) : RDict :=
  [("file_path", JVal.s ((quotedField "file_path" argsStr).getD "recovered_file.txt")),
   ("content", JVal.s ((quotedField "content" argsStr).getD "# Content could not be recovered"))]

/-- `re.sub(r'\s+', ' ', s)`: collapse every whitespace run to one space,
without trimming.  `inRun` remembers whether the previous character was part
of a run already collapsed. -/
def squeezeAux (inRun : Bool) : List Char → List Char
  | [] => []
  | c :: t =>
    if isSpacePy c then
      if inRun then squeezeAux true t else ' ' :: squeezeAux true t
    else c :: squeezeAux false t

/-- `re.sub(r'\s+', ' ', s)` on a character list. -/
def squeezeSpaces (l : List Char) : List Char := squeezeAux false l

/-- The cleanup `re.sub(r'[\n\r\t]', ' ', s)` then `re.sub(r'\s+', ' ', s)`
of `_parse_generic_arguments`. -/
def genericCleanup (argsStr : String) : String :=
  let l1 := argsStr.toList.map fun c =>
    if c = '\n' ∨ c = '\x0d' ∨ c = '\t' then ' ' else c
  ⟨squeezeSpaces l1⟩

/-- `ToolService._parse_generic_arguments`: clean the text and retry
`json.loads`; any failure yields the empty mapping. -/
def parseGenericArguments (jsonLoads : String → Option RDict) (argsStr : String) : RDict :=
  (jsonLoads (genericCleanup argsStr)).getD []

/-- `ToolService.parse_tool_arguments`: strict parse first, then per-tool
recovery. -/
def parseToolArguments (jsonLoads : String → Option RDict)
    (argsStr : String) (functionName : String) : RDict :=
  match jsonLoads argsStr with
  | some d => d
  | none =>
    if functionName = "run_command" then parseCommandArguments argsStr
    else if functionName = "write_file" then parseWriteFileArguments argsStr
    else parseGenericArguments jsonLoads argsStr

/-! ## Filesystem model and the file tools (`src/tools/file_tools.py`) -/

/-- The filesystem: a map from resolved paths to file contents. -/
def FS := List (String × String)

instance : DecidableEq FS := by
  unfold FS
  infer_instance

/-- Content of the file at `p`, if it exists. -/
def fsGet (fs : FS) (p : String) : Option String :=
  match fs with
  | [] => none
  | (q, c) :: rest => if q = p then some c else fsGet rest p

/-- Write (create or overwrite) the file at `p`. -/
def fsSet (fs : FS) (p : String) (c : String) : FS :=
  match fs with
  | [] => [(p, c)]
  | (q, c') :: rest => if q = p then (q, c) :: rest else (q, c') :: fsSet rest p c

/-- `os.path.expanduser` for the plain `~` and `~/...` forms. -/
def expanduser (home p : String) : String :=
  if p = "~" then home
  else if leadsWith "~/".toList p.toList then home ++ ⟨p.toList.drop 1⟩
  else p

/-- The escape-artifact cleanup of `write_file` (file_tools.py lines 60-72):
conditionally turn literal `\n` into newlines, then unconditionally replace
literal `\t`, `\"` and `\'`. -/
def cleanContent (content : String) : String :=
  let c0 :=
    if pyIn "\\n" content ∧ ¬ pyIn "\n" content then pyReplace content "\\n" "\n"
    else if pyIn "\\n" content ∧ pyCount content "\\n" > pyCount content "\n" then
      pyReplace content "\\n" "\n"
    else content
  let c1 := pyReplace c0 "\\t" "\t"
  let c2 := pyReplace c1 "\\\"" "\""
  pyReplace c2 "\\'" "'"

/-- The cleanup as the specification words it (for comparison with
`cleanContent`, which is translated from the source): literal `\n` becomes
a newline exactly when literal `\n` sequences outnumber real newlines, and
literal `\t`, `\"`, `\'` are replaced unconditionally. -/
def cleanContentSpec (content : String) : String :=
  let c0 :=
    if pyCount content "\\n" > pyCount content "\n" then pyReplace content "\\n" "\n"
    else content
  pyReplace (pyReplace (pyReplace c0 "\\t" "\t") "\\\"" "\"") "\\'" "'"

/-- `write_file` body on already-bound string arguments (the resolver is the
`safePath` oracle; directory creation has no effect on the file map). -/
def writeFileCore (safePath : String → String) (fs : FS)
    (filePath content : String) : RDict × FS :=
  let path := safePath filePath
  let cleaned := cleanContent content
  let fs' := fsSet fs path cleaned
  ([("success", JVal.b true),
    ("message", JVal.s ("File written successfully: " ++ filePath)),
    ("path", JVal.s path),
    ("size", JVal.i (cleaned.utf8ByteSize : Int)),
    ("lines", JVal.i ((pySplitlines cleaned).length : Int)),
    ("content_cleaned", JVal.b (cleaned ≠ content))], fs')

/-- Stable insertion of `x` into a list sorted descending by `key`: `x` goes
before the first element whose key is not greater (so equal keys keep their
original relative order, as Python's stable `sorted(..., reverse=True)`). -/
def insDesc {α : Type} (key : α → Int) (x : α) : List α → List α
  | [] => [x]
  | y :: ys => if key x < key y then y :: insDesc key x ys else x :: y :: ys

/-- Stable descending sort by `key` (extensionally equal to Python's
`sorted(items, key=..., reverse=True)`, both being stable). -/
def sortDesc {α : Type} (key : α → Int) : List α → List α
  | [] => []
  | x :: xs => insDesc key x (sortDesc key xs)

/-- One iteration of the edit loop of `edit_file_lines` (file_tools.py lines
128-139): `idx` is the zero-based line index; out-of-range edits are
skipped, `''` deletes, embedded newlines splice, and a single line inherits
the trailing newline of the line it replaces. -/
def applyOneEdit (lines : List String) (idx : Int) (newContent : String) : List String :=
  if 0 ≤ idx ∧ idx < (lines.length : Int) then
    let i := idx.toNat
    if newContent = "" then lines.eraseIdx i
    else if pyIn "\n" newContent then
      let newLines := (pySplitlines newContent).map fun l =>
        if endsWithPy "\n" l then l else l ++ "\n"
      lines.take i ++ newLines ++ lines.drop (i + 1)
    else
      let cur := lines.getD i ""
      let nc :=
        if endsWithPy "\n" cur ∧ ¬ endsWithPy "\n" newContent then newContent ++ "\n"
        else newContent
      lines.set i nc
  else lines

/-- The edit loop over the descending-sorted items. -/
def applyEdits (lines : List String) : List (String × String) → List String
  | [] => lines
  | (k, v) :: rest => applyEdits (applyOneEdit lines ((pyToInt k).getD 0 - 1) v) rest

/-- `edit_file_lines` given a resolved file path and a string-to-string edit
dictionary (the part after argument normalization).  Requires every key to
parse as an int (otherwise `sorted(..., key=lambda x: int(x[0]))` raises,
caught by the function's own handler). -/
def editFileLinesCore (home : String) (fs : FS) (filePath : String)
    (edits : List (String × String)) : RDict × FS :=
  let expandedPath := expanduser home filePath
  match fsGet fs expandedPath with
  | none => ([("error", JVal.s ("File not found: " ++ filePath))], fs)
  | some content =>
    if edits.all fun kv => (pyToInt kv.1).isSome then
      let lines := pyReadlines content
      let editItems := sortDesc (fun kv => (pyToInt kv.1).getD 0) edits
      let lines' := applyEdits lines editItems
      let fs' := fsSet fs expandedPath (String.join lines')
      ([("success", JVal.b true),
        ("file_path", JVal.s expandedPath),
        ("lines_edited", JVal.strs (edits.map Prod.fst)),
        ("total_lines", JVal.i (lines'.length : Int))], fs')
    else
      ([("error", JVal.s "Failed to edit file lines: invalid literal for int()")], fs)

/-- The argument normalization of `edit_file_lines` (file_tools.py lines
98-115): accepts `edits` or `lines` as the dictionary key, a whole argument
dict passed as `file_path`, and a JSON string for the dictionary
(`jsonLoadsV` standing for `json.loads`). -/
def editFileLines (jsonLoadsV : String → Option JVal) (home : String) (fs : FS)
    (args : RDict) : RDict × FS :=
  -- a JSON `null` argument binds the parameter to Python `None`, which the
  -- function treats exactly like an absent argument
  let fp0 := match dget args "file_path" with
    | some JVal.null => none
    | v => v
  let ed0 := match dget args "edits" with
    | some JVal.null => none
    | v => v
  let kw : RDict := args.filter fun p => p.1 ≠ "file_path" ∧ p.1 ≠ "edits"
  -- `if file_path is not None and edits is None and isinstance(file_path, dict)`
  let pair1 : Option JVal × Option JVal :=
    match fp0, ed0 with
    | some (JVal.strMap m), none =>
      ((m.lookup "file_path").map JVal.s,
        orElsePy ((m.lookup "edits").map JVal.s) ((m.lookup "lines").map JVal.s))
    | _, _ => (fp0, ed0)
  -- `if file_path is None or edits is None: ...` (kwargs fallback, `lines` key)
  let pair2 : Option JVal × Option JVal :=
    if pair1.1 = none ∨ pair1.2 = none then
      ((match dget kw "file_path" with
        | some v => some v
        | none => pair1.1),
        orElsePy (dget kw "edits") (orElsePy (dget kw "lines") pair1.2))
    else pair1
  -- `if isinstance(edits, str): edits = json.loads(edits)` (failure is the
  -- dict-shape error)
  let edDecoded : Except String (Option JVal) :=
    match pair2.2 with
    | some (JVal.s str) =>
      match jsonLoadsV str with
      | some v => Except.ok (some v)
      | none => Except.error "not a dict"
    | other => Except.ok other
  match edDecoded with
  | Except.error _ =>
    ([("error", JVal.s
      "'edits' must be a dict or a JSON string representing a dict of line edits.")], fs)
  | Except.ok ed =>
    -- `if not file_path or not isinstance(edits, dict)`
    match ed with
    | some (JVal.strMap m) =>
      if jtruthy pair2.1 then
        match pair2.1 with
        | some (JVal.s fp) => editFileLinesCore home fs fp m
        | _ =>
          -- a truthy non-string file_path makes `os.path.expanduser` raise,
          -- caught by the function's own handler
          ([("error", JVal.s "Failed to edit file lines: bad file_path type")], fs)
      else
        ([("error", JVal.s
          "edit_file_lines requires 'file_path' (str) and 'edits' (dict) arguments.")], fs)
    | _ =>
      ([("error", JVal.s
        "edit_file_lines requires 'file_path' (str) and 'edits' (dict) arguments.")], fs)

/-! ## System tools (`src/tools/system_tools.py`)

The deny-list of `run_command` is ten regular expressions, each a sequence
of case-insensitive literals, `\s+`/`\s*` gaps and (for nine of them) a
leading `\b`.  Because no literal begins with a whitespace character, the
greedy gaps match deterministically, and because each `\b` is followed by a
word character, the boundary holds exactly when the preceding character is
absent or not a word character. -/

/-- A compiled piece of one deny-list pattern. -/
inductive PatTok where
  | lit (s : String)
  | ws1
  | ws0

/-- Case-insensitive prefix test (`re.IGNORECASE`). -/
def leadsWithCI : List Char → List Char → Bool
  | [], _ => true
  | _ :: _, [] => false
  | a :: as, b :: bs => (a.toLower == b.toLower) && leadsWithCI as bs

/-- Match a token sequence at the head of `l`. -/
def matchToks : List PatTok → List Char → Bool
  | [], _ => true
  | PatTok.lit s :: rest, l => leadsWithCI s.toList l && matchToks rest (l.drop s.length)
  | PatTok.ws1 :: rest, l =>
    match l with
    | c :: t => isSpacePy c && matchToks rest (t.dropWhile isSpacePy)
    | [] => false
  | PatTok.ws0 :: rest, l => matchToks rest (l.dropWhile isSpacePy)

/-- `\b` before a word character: the previous character must be absent or a
non-word character. -/
def prevNonWord : Option Char → Bool
  | none => true
  | some c => ¬ isWordChar c

/-- `re.search`: try the token sequence at every position, left to right,
tracking the previous character for the `\b` test. -/
def searchToks (needsWB : Bool) (toks : List PatTok) : Option Char → List Char → Bool
  | prev, [] => ((!needsWB) || prevNonWord prev) && matchToks toks []
  | prev, c :: t =>
    (((!needsWB) || prevNonWord prev) && matchToks toks (c :: t)) ||
      searchToks needsWB toks (some c) t

/-- The deny-list of `run_command` (system_tools.py lines 51-62), compiled:
the flag says whether the pattern starts with `\b`. -/
def dangerousPatterns : List (Bool × List PatTok) :=
  [(true, [PatTok.lit "rm", PatTok.ws1, PatTok.lit "-rf", PatTok.ws1, PatTok.lit "/"]),
   (true, [PatTok.lit "dd", PatTok.ws1, PatTok.lit "if="]),
   (true, [PatTok.lit "format", PatTok.ws1]),
   (true, [PatTok.lit "mkfs."]),
   (true, [PatTok.lit "shutdown"]),
   (true, [PatTok.lit "reboot"]),
   (true, [PatTok.lit "halt"]),
   (false, [PatTok.lit ">", PatTok.ws0, PatTok.lit "/dev/"]),
   (true, [PatTok.lit "sudo", PatTok.ws1, PatTok.lit "rm"]),
   (true, [PatTok.lit "sudo", PatTok.ws1, PatTok.lit "dd"])]

/-- Does the command match some deny-list pattern? -/
def isDangerousCommand (command : String) : Bool :=
  dangerousPatterns.any fun p => searchToks p.1 p.2 none command.toList

/-- Outcome of a `subprocess.run` invocation (an oracle of the embedding). -/
inductive SubOutcome where
  | completed (returncode : Int) (stdout stderr : String)
  | timedOut
  | failed (e : String)

/-- A recorded invocation of the subprocess layer (the spy). -/
structure SubCall where
  command : String
  cwd : String
  timeout : Int
  deriving Repr, DecidableEq

/-- The part of `run_command` from the deny-list check on: block, or invoke
the subprocess layer and shape its outcome. -/
def runCommandExec (sub : String → String → Int → SubOutcome)
    (command workDir : String) (timeout : Int) : RDict × List SubCall :=
  if isDangerousCommand command then
    ([("success", JVal.b false),
      ("error", JVal.s ("Command blocked for security reasons: " ++ command))], [])
  else
    match sub command workDir timeout with
    | SubOutcome.completed rc out err =>
      ([("success", JVal.b true),
        ("command", JVal.s command),
        ("working_directory", JVal.s workDir),
        ("return_code", JVal.i rc),
        ("stdout", JVal.s out),
        ("stderr", JVal.s err),
        ("success_execution", JVal.b (rc = 0))], [⟨command, workDir, timeout⟩])
    | SubOutcome.timedOut =>
      ([("success", JVal.b false),
        ("error", JVal.s ("Command timed out after " ++ toString timeout ++ " seconds"))],
        [⟨command, workDir, timeout⟩])
    | SubOutcome.failed e =>
      ([("success", JVal.b false),
        ("error", JVal.s ("Error executing command: " ++ e))],
        [⟨command, workDir, timeout⟩])

/-- `run_command(command, working_directory, timeout)`: the truthy working
directory is resolved and must exist before the deny-list is consulted. -/
def runCommand (dirExists : String → Bool) (safePath : String → String) (cwd : String)
    (sub : String → String → Int → SubOutcome)
    (command : String) (workingDirectory : Option String) (timeout : Int) :
    RDict × List SubCall :=
  match workingDirectory with
  | some wd =>
    if wd ≠ "" then
      if dirExists (safePath wd) then runCommandExec sub command (safePath wd) timeout
      else
        ([("success", JVal.b false),
          ("error", JVal.s ("Working directory not found: " ++ wd))], [])
    else runCommandExec sub command cwd timeout
  | none => runCommandExec sub command cwd timeout

/-! ## Tool Dispatcher (`src/tools/__init__.py`, `ToolRegistry.execute_tool`)
and the Permission Gate (`ToolService.execute_tool_with_feedback`). -/

/-- The fixed tool map of `ToolRegistry.__init__`. -/
def knownToolNames : List String :=
  ["read_file", "write_file", "edit_file_lines", "list_directory",
   "search_in_files", "show_directory_tree", "get_machine_info",
   "run_command", "analyze_code"]

/-- Environment of the tool layer: resolver, filesystem predicates, the
subprocess oracle, `json.loads`, and oracles for the read-only tools whose
behavior no claim constrains. -/
structure ToolEnv where
  home : String
  cwd : String
  safePath : String → String
  dirExists : String → Bool
  jsonLoadsV : String → Option JVal
  sub : String → String → Int → SubOutcome
  readFileO : RDict → Except String RDict
  listDirectoryO : RDict → Except String RDict
  searchInFilesO : RDict → Except String RDict
  showDirectoryTreeO : RDict → Except String RDict
  machineInfoO : RDict → Except String RDict
  analyzeCodeO : RDict → Except String RDict

/-- Keyword binding and body of one known tool.  `Except.error` stands for a
Python exception escaping the tool call (e.g. a `TypeError` from binding
`**kwargs` against the tool's signature). -/
def runKnownTool (env : ToolEnv) (fs : FS) (name : String) (kwargs : RDict) :
    Except String (RDict × FS × List SubCall) :=
  if name = "write_file" then
    match dget kwargs "file_path", dget kwargs "content" with
    | some (JVal.s fp), some (JVal.s content) =>
      if kwargs.all fun p => p.1 ∈ ["file_path", "content", "create_directories"] then
        let (r, fs') := writeFileCore env.safePath fs fp content
        Except.ok (r, fs', [])
      else Except.error "write_file() got an unexpected keyword argument"
    | some _, some _ =>
      -- non-string arguments make the body raise inside its own handler
      Except.ok ([("success", JVal.b false),
        ("error", JVal.s "Error writing file: bad argument types")], fs, [])
    | _, _ => Except.error "write_file() missing required positional argument"
  else if name = "edit_file_lines" then
    let (r, fs') := editFileLines env.jsonLoadsV env.home fs kwargs
    Except.ok (r, fs', [])
  else if name = "run_command" then
    match dget kwargs "command" with
    | some (JVal.s command) =>
      if kwargs.all fun p => p.1 ∈ ["command", "working_directory", "timeout"] then
        let wd : Option String :=
          match dget kwargs "working_directory" with
          | some (JVal.s w) => some w
          | _ => none
        let timeout : Int :=
          match dget kwargs "timeout" with
          | some (JVal.i t) => t
          | _ => 30
        let (r, subs) := runCommand env.dirExists env.safePath env.cwd env.sub
          command wd timeout
        Except.ok (r, fs, subs)
      else Except.error "run_command() got an unexpected keyword argument"
    | some _ =>
      -- `re.search` on a non-string raises inside the body's own handler
      Except.ok ([("success", JVal.b false),
        ("error", JVal.s "Error executing command: expected string or bytes-like object")],
        fs, [])
    | none => Except.error "run_command() missing required positional argument"
  else if name = "read_file" then (env.readFileO kwargs).map fun r => (r, fs, [])
  else if name = "list_directory" then (env.listDirectoryO kwargs).map fun r => (r, fs, [])
  else if name = "search_in_files" then (env.searchInFilesO kwargs).map fun r => (r, fs, [])
  else if name = "show_directory_tree" then
    (env.showDirectoryTreeO kwargs).map fun r => (r, fs, [])
  else if name = "get_machine_info" then (env.machineInfoO kwargs).map fun r => (r, fs, [])
  else (env.analyzeCodeO kwargs).map fun r => (r, fs, [])

/-- `ToolRegistry.execute_tool`: unknown names are refused, and any
exception from a tool body is converted to a structured failure.
`ToolService.execute_tool` wraps the same call in an identical
try/except, so it denotes the same function. -/
def executeTool (env : ToolEnv) (fs : FS) (toolName : String) (kwargs : RDict) :
    RDict × FS × List SubCall :=
  if toolName ∉ knownToolNames then
    ([("success", JVal.b false), ("error", JVal.s ("Unknown tool: " ++ toolName))], fs, [])
  else
    match runKnownTool env fs toolName kwargs with
    | Except.ok out => out
    | Except.error e =>
      ([("success", JVal.b false), ("error", JVal.s ("Tool execution error: " ++ e))], fs, [])

/-- First decisive console answer: `y`/`yes` approve, `n`/`no` deny, other
answers re-prompt (`input().strip().lower()`). -/
def firstDecision : List String → Option Bool
  | [] => none
  | a :: t =>
    let x : String := ⟨(stripChars a.toList).map Char.toLower⟩
    if x = "y" ∨ x = "yes" then some true
    else if x = "n" ∨ x = "no" then some false
    else firstDecision t

/-- The visible dictionary returned by the permission gate. -/
structure FeedbackResult where
  result : RDict
  requiresPermission : Bool
  userApproved : Option Bool
  deriving Repr, DecidableEq

/-- Spy on the permission gate: whether the underlying tool implementation
was invoked and whether a console prompt was shown. -/
structure FeedbackSpy where
  toolInvoked : Bool
  prompted : Bool
  deriving Repr, DecidableEq

/-- The denial result of the permission gate. -/
def cancelledResult : RDict :=
  [("success", JVal.b false),
   ("error", JVal.s "Operation cancelled by user"),
   ("user_denied", JVal.b true)]

/-- `ToolService.execute_tool_with_feedback`: gate mutating tools behind a
synchronous yes/no prompt (`answers` is the console input stream; `none`
models `input()` raising at end of input). -/
def executeToolWithFeedback (env : ToolEnv) (fs : FS) (answers : List String)
    (functionName : String) (functionArgs : RDict) (autoApprove : Bool) :
    Option (FeedbackResult × FS × FeedbackSpy × List SubCall) :=
  let requiresPermission0 := functionName ∈ ["write_file", "edit_file_lines"]
  let requiresPermission :=
    if functionName = "retrieve_context" then false else requiresPermission0
  if requiresPermission ∧ ¬ autoApprove then
    match firstDecision answers with
    | none => none
    | some true =>
      let (r, fs', subs) := executeTool env fs functionName functionArgs
      some ({result := r, requiresPermission := true, userApproved := some true},
        fs', {toolInvoked := true, prompted := true}, subs)
    | some false =>
      some ({result := cancelledResult,
             requiresPermission := true,
             userApproved := some false},
        fs, {toolInvoked := false, prompted := true}, [])
  else
    let (r, fs', subs) := executeTool env fs functionName functionArgs
    some ({result := r,
           requiresPermission := requiresPermission,
           userApproved := if requiresPermission then some autoApprove else none},
      fs', {toolInvoked := true, prompted := false}, subs)

/-! ## LLM backends and failover (`src/services/llm_service.py`)

The network is the oracle `net backend model prompt`; `get_response_*`
catches every exception and turns it into an `Error getting response from
<Backend>: …` string (temperature, a float, only flows into the network
call and is left out of the embedding). -/

/-- Python `s.startswith(pre)`. -/
def startsWithPy (pre s : String) : Bool :=
  leadsWith pre.toList s.toList

/-- Display name used in the per-backend error strings. -/
def backendErrName : String → String
  | "groq" => "Groq"
  | "openai" => "OpenAI"
  | "ollama" => "Ollama"
  | _ => ""

/-- `LLMService.get_response_{groq,openai,ollama}` over the network oracle. -/
def getResponse (net : String → String → String → Except String String)
    (backend model prompt : String) : String :=
  match net backend model prompt with
  | Except.ok s => s
  | Except.error e =>
    "Error getting response from " ++ backendErrName backend ++ ": " ++ e

/-- The backend order tried by `call_llm_with_fallback`: the preferred
backend first, then the fixed order `ollama`, `openai`, `groq` without
duplicates. -/
def fallbackOrder (preferred : String) : List String :=
  toLowerPy preferred :: (["ollama", "openai", "groq"].filter fun b => b ≠ toLowerPy preferred)

/-- The backend loop of `call_llm_with_fallback`: skip unknown names, treat
an `Error getting response from…` string as a failure, remember the last
error. -/
def fallbackLoop (net : String → String → String → Except String String)
    (prompt model : String) : List String → Option String → String × Option String
  | [], lastErr => (lastErr.getD "No LLM backend available", none)
  | b :: rest, lastErr =>
    if b = "groq" ∨ b = "openai" ∨ b = "ollama" then
      let ans := getResponse net b model prompt
      if startsWithPy "Error getting response from" ans then
        fallbackLoop net prompt model rest (some ans)
      else (ans, some b)
    else fallbackLoop net prompt model rest lastErr

/-- `LLMService.call_llm_with_fallback`: returns `(answer, used_backend)`;
`none` as the backend signals total failure. -/
def callLlmWithFallback (net : String → String → String → Except String String)
    (prompt preferredBackend model : String) : String × Option String :=
  fallbackLoop net prompt model (fallbackOrder preferredBackend) none

/-! ## Retrieval results and context documents (`src/qa_system.py`) -/

/-- The retrieval response dict (`documents` is a list of per-query lists;
`retrievalOk = none` models an absent `retrieval_ok` key). -/
structure SearchResults where
  documents : List (List String)
  metadatas : List (List RDict)
  retrievalOk : Option Bool
  deriving Repr

/-- The truthiness chain
`search_results and search_results.get('documents') and
 search_results['documents'] and search_results['documents'][0]`
(`none` models a falsy/absent result). -/
def hasDocs : Option SearchResults → Bool
  | none => false
  | some sr =>
    match sr.documents with
    | [] => false
    | d0 :: _ => d0 ≠ []

/-- A context document, as assembled by `_build_context_docs_from_search`. -/
structure ContextDoc where
  text : String
  metadata : RDict
  fileName : String
  filePath : String
  fileType : String
  language : String
  deriving Repr

/-- `metadata.get(key, default)` restricted to string values. -/
def mdStr (md : RDict) (k dflt : String) : String :=
  match dget md k with
  | some (JVal.s v) => v
  | _ => dflt

/-- `QASystem._build_context_docs_from_search`. -/
def buildContextDocs (sr : Option SearchResults) (maxResults : Nat) : List ContextDoc :=
  if hasDocs sr then
    match sr with
    | none => []
    | some sr =>
      let documents := sr.documents.headD []
      let metadatas := sr.metadatas.headD []
      (documents.take maxResults).enum.map fun p =>
        let md := metadatas.getD p.1 []
        { text := p.2, metadata := md,
          fileName := mdStr md "file_name" "Unknown",
          filePath := mdStr md "file_path" "",
          fileType := mdStr md "file_type" "unknown",
          language := mdStr md "language" "unknown" }
  else []

/-- Python `str(value)` for the modelled values (used in f-strings). -/
def jvalStr : JVal → String
  | JVal.s v => v
  | JVal.b true => "True"
  | JVal.b false => "False"
  | JVal.i v => toString v
  | JVal.null => "None"
  | JVal.strMap _ => "{…}"
  | JVal.strs _ => "[…]"

/-- `QASystem._build_context_string`. -/
def buildContextString (docs : List ContextDoc) : String :=
  let parts := docs.enum.map fun p =>
    "Document " ++ toString (p.1 + 1) ++ ":\n" ++
      "File: " ++ p.2.fileName ++ " (" ++ p.2.fileType ++ ")\n" ++
      (if jtruthy (dget p.2.metadata "source_link") then
        "Source: " ++ jvalStr ((dget p.2.metadata "source_link").getD JVal.null) ++ "\n"
      else "") ++
      "Content:\n" ++ p.2.text ++ "\n"
  if parts ≠ [] then
    "\n" ++ (⟨List.replicate 50 '='⟩ : String) ++ String.intercalate "\n" parts
  else ""

/-! ## Messages and conversation state -/

/-- One entry of an assistant message's `tool_calls` list (the inner
`function` dict is flattened into `name`/`arguments`). -/
structure ToolCallMsg where
  id : String
  name : String
  arguments : String
  deriving Repr, DecidableEq

/-- A chat message of the LLM transcript. -/
structure Message where
  role : String
  content : String
  toolCallId : Option String := none
  toolCalls : Option (List ToolCallMsg) := none
  deriving Repr, DecidableEq

/-- A tool call as returned by an LLM backend (`id` may be absent). -/
structure LLMToolCall where
  id : Option String
  name : String
  arguments : String
  deriving Repr, DecidableEq

/-- History messages as lines of the fallback prompt. -/
def historyLines (history : List Message) : List String :=
  history.filterMap fun m =>
    if m.role = "user" then some ("User: " ++ m.content)
    else if m.role = "assistant" then some ("Assistant: " ++ m.content)
    else none

/-! ## The traditional (non-tool) RAG path
(`QASystem._traditional_rag_response`) -/

/-- A source entry of the non-tool path's response (built from a context
document; `composite_score`, a float rounded from a key these documents
never carry, is left out of the embedding). -/
structure SourceRec where
  content : String
  fileName : String
  filePath : String
  fileType : String
  language : String
  sourceLink : Option JVal
  rawUrl : Option JVal
  chunkIndex : Option JVal
  hasCode : JVal
  hasImages : JVal
  qualityScore : Option JVal
  deriving Repr, DecidableEq

/-- The response dict of `_traditional_rag_response`: the returned dict has
no `success` key at all, which `success = none` records (`search_info` is
kept to its `total_found` and `used_fallback` entries). -/
structure RagResult where
  success : Option Bool
  answer : String
  sources : List SourceRec
  totalFound : Nat
  usedFallback : Bool
  deriving Repr, DecidableEq

/-- Environment of the non-tool path: the retrieval call, the persisted
history, the network oracle of §4.5 and the prompt generator. -/
structure RagEnv where
  search : String → Nat → Bool → Option SearchResults
  history : List Message
  net : String → String → String → Except String String
  generatePrompt : String → List ContextDoc → String

/-- The fixed fallback prompt built when retrieval yields nothing. -/
def ragFallbackPrompt (history : List Message) (question : String) : String :=
  let lines := historyLines history
  let historyBlock :=
    if lines ≠ [] then "Conversation so far:\n" ++ String.intercalate "\n" lines ++ "\n\n"
    else ""
  "You are BeagleMind, a concise, reliable assistant for Beagleboard tasks.\n\n" ++
    "No repository context is available for this question. Provide a practical, step-by-step answer " ++
    "with a small code example when helpful. Keep it accurate and concise.\n\n" ++
    historyBlock ++ "Question: " ++ question ++ "\n\nAnswer:"

/-- `QASystem._traditional_rag_response`. -/
def traditionalRagResponse (env : RagEnv) (question : String) (nResults : Nat)
    (modelName : String) (llmBackend : String) : RagResult :=
  let maxResults := if toLowerPy llmBackend = "ollama" then 3 else nResults
  let searchResults := env.search question maxResults true
  if ¬ hasDocs searchResults then
    -- graceful LLM-only fallback
    let retrievalNote :=
      match searchResults with
      | some sr => if sr.retrievalOk = some false then
          "Note: retrieval system not configured or unreachable. " else ""
      | none => ""
    let fallbackPrompt := ragFallbackPrompt env.history question
    let called := callLlmWithFallback env.net fallbackPrompt llmBackend modelName
    let answer :=
      match called.2 with
      | none => "I couldn't generate an answer right now. Please try again."
      | some _ => called.1
    let finalAnswer := retrievalNote ++ answer
    { success := none, answer := finalAnswer, sources := [], totalFound := 0,
      usedFallback := true }
  else
    let contextDocs := buildContextDocs searchResults maxResults
    let prompt0 := env.generatePrompt question contextDocs
    let lines := historyLines env.history
    let prompt :=
      if lines ≠ [] then
        "Conversation so far:\n" ++ String.intercalate "\n" lines ++ "\n\n---\n" ++ prompt0
      else prompt0
    let called := callLlmWithFallback env.net prompt llmBackend modelName
    let answer :=
      match called.2 with
      | none => "Error generating answer: " ++ called.1
      | some _ => called.1
    let sources := contextDocs.map fun doc =>
      { content := doc.text, fileName := doc.fileName, filePath := doc.filePath,
        fileType := doc.fileType, language := doc.language,
        sourceLink := dget doc.metadata "source_link",
        rawUrl := dget doc.metadata "raw_url",
        chunkIndex := dget doc.metadata "chunk_index",
        hasCode := (dget doc.metadata "has_code").getD (JVal.b false),
        hasImages := (dget doc.metadata "has_images").getD (JVal.b false),
        qualityScore := dget doc.metadata "content_quality_score" }
    { success := none, answer := answer, sources := sources,
      totalFound := ((env.search question maxResults true).map fun sr =>
        (sr.documents.headD []).length).getD 0,
      usedFallback := false }

/-! ## The orchestration loop (`QASystem.chat_with_tools`)

The loop is embedded with the external effects as oracles: `net n` is the
`n`-th LLM round trip (the claims never need the response to depend on the
transcript beyond the round number), `execFeedback i` the `i`-th invocation
of `ToolService.execute_tool_with_feedback`, and `jsonLoads` the outcome of
`json.loads` on argument text.  Each outgoing LLM request is recorded in a
spy list; for the Groq and OpenAI branches the request carries
`tools or []` exactly as `chat_with_groq`/`chat_with_openai` forward it to
the chat-completion API, while `chat_with_ollama` is called without a
`tools` argument and passes none to the API. -/

/-- Spy record of one outgoing LLM request. -/
structure LLMRequest where
  backend : String
  model : String
  messages : List Message
  tools : Option (List RDict)
  deriving Repr

/-- Minimal JSON string escaping (backslash, quote, newline, tab, carriage
return), enough for `json.dumps` on the values the modelled code builds. -/
def jsonEscape (s : String) : String :=
  ⟨s.toList.foldr (fun c acc =>
    if c = '\\' then '\\' :: '\\' :: acc
    else if c = '"' then '\\' :: '"' :: acc
    else if c = '\n' then '\\' :: 'n' :: acc
    else if c = '\t' then '\\' :: 't' :: acc
    else if c = '\x0d' then '\\' :: 'r' :: acc
    else c :: acc) []⟩

/-- `json.dumps` on a modelled value. -/
def dumpJVal : JVal → String
  | JVal.s v => "\"" ++ jsonEscape v ++ "\""
  | JVal.b true => "true"
  | JVal.b false => "false"
  | JVal.i v => toString v
  | JVal.null => "null"
  | JVal.strMap kvs =>
    "\x7b" ++ String.intercalate ", " (kvs.map fun kv =>
      "\"" ++ jsonEscape kv.1 ++ "\": \"" ++ jsonEscape kv.2 ++ "\"") ++ "\x7d"
  | JVal.strs vs =>
    "[" ++ String.intercalate ", " (vs.map fun v => "\"" ++ jsonEscape v ++ "\"") ++ "]"

/-- `json.dumps` on a modelled dict. -/
def dumpRDict (d : RDict) : String :=
  "\x7b" ++ String.intercalate ", " (d.map fun kv =>
    "\"" ++ jsonEscape kv.1 ++ "\": " ++ dumpJVal kv.2) ++ "\x7d"

/-- `json.dumps` on the wrapper dict returned by
`execute_tool_with_feedback`. -/
def dumpFeedback (w : FeedbackResult) : String :=
  "\x7b\"result\": " ++ dumpRDict w.result ++
    ", \"requires_permission\": " ++ dumpJVal (JVal.b w.requiresPermission) ++
    ", \"user_approved\": " ++
      (match w.userApproved with
       | some b => dumpJVal (JVal.b b)
       | none => "null") ++ "\x7d"

/-- One executed tool call as recorded inside a conversation entry. -/
structure ConvToolRec where
  function : String
  arguments : RDict
  result : FeedbackResult
  deriving Repr, DecidableEq

/-- One entry of the `conversation` list built by the loop. -/
structure ConvEntry where
  role : String
  content : String
  toolCalls : List ConvToolRec
  deriving Repr, DecidableEq

/-- One entry of the `tool_results` list built by the loop. -/
structure ToolResultRec where
  tool : String
  arguments : RDict
  result : FeedbackResult
  requiresPermission : Bool
  userApproved : Option Bool
  deriving Repr, DecidableEq

/-- A source entry of `utils.prepare_sources_for_response` (the
`composite_score` entry, a float that is constantly `0.0` for loop-built
documents, is left out of the embedding). -/
structure LoopSource where
  content : String
  fileName : String
  fileType : String
  sourceLink : Option JVal
  deriving Repr, DecidableEq

/-- `utils.prepare_sources_for_response` on loop-built context documents. -/
def prepareLoopSources (docs : List ContextDoc) : List LoopSource :=
  docs.map fun doc =>
    { content := doc.text, fileName := doc.fileName, fileType := doc.fileType,
      sourceLink := dget doc.metadata "source_link" }

/-- The structured result of `chat_with_tools`.  The Python function returns
a dict whose keys differ between the success and failure shapes; absent
keys are `none` / default values here (`search_info` is left out). -/
structure ChatResult where
  success : Bool
  answer : String
  error : Option String := none
  conversation : List ConvEntry := []
  toolResults : List ToolResultRec := []
  sources : List LoopSource := []
  iterationsUsed : Option Nat := none
  deriving Repr, DecidableEq

/-- The failure shape built by the outermost `except` of `chat_with_tools`. -/
def failureChatResult (e : String) : ChatResult :=
  { success := false,
    answer := "I encountered an error while processing your request. Please try again. Error: " ++ e,
    error := some ("Chat failed: " ++ e) }

/-- Environment of the orchestration loop. -/
structure ChatEnv where
  search : String → Nat → Bool → Except String (Option SearchResults)
  machineInfo : Except String RDict
  buildSystemPrompt : String → String → String → RDict → Bool → Except String String
  history : List Message
  availableTools : List RDict
  retrieveToolDef : RDict
  net : Nat → Except String (Option String × List LLMToolCall)
  jsonLoads : String → Option RDict
  execFeedback : Nat → String → RDict → Bool → Except String FeedbackResult

/-- Mutable state of one loop run. -/
structure LoopState where
  messages : List Message
  conversation : List ConvEntry
  toolResults : List ToolResultRec
  requests : List LLMRequest
  toolCallCount : Nat
  deriving Repr

/-- Outcome of the `for` loop: normal termination (`iterPlusOne = none`
models `max_iterations = 0`, where the later read of `iteration` raises a
`NameError`), or a Python exception carrying the state reached so far. -/
inductive LoopOut where
  | done (st : LoopState) (iterPlusOne : Option Nat)
  | failed (st : LoopState) (e : String)

/-- The state carried by a loop outcome. -/
def LoopOut.state : LoopOut → LoopState
  | LoopOut.done st _ => st
  | LoopOut.failed st _ => st

/-- `conversation[-1]["tool_calls"].append(...)`. -/
def addToolRecToLast (conv : List ConvEntry) (r : ConvToolRec) : List ConvEntry :=
  match conv.getLast? with
  | none => conv
  | some last => conv.dropLast ++ [{ last with toolCalls := last.toolCalls ++ [r] }]

/-- The mutating-tool list consulted when recording a tool result. -/
def mutatingTools : List String := ["write_file", "edit_file_lines"]

/-- The per-iteration tool-call loop (`chat_with_tools` lines 480-511):
parse arguments defensively, execute through the permission gate, record
the result, and append a tool-role message keyed by the call id. -/
def runToolCalls (env : ChatEnv) (autoApprove : Bool) :
    List LLMToolCall → LoopState → Except (LoopState × String) LoopState
  | [], st => Except.ok st
  | tc :: rest, st =>
    let functionArgs :=
      match env.jsonLoads tc.arguments with
      | some d => d
      | none => parseToolArguments env.jsonLoads tc.arguments tc.name
    match env.execFeedback st.toolCallCount tc.name functionArgs autoApprove with
    | Except.error e => Except.error (st, e)
    | Except.ok w =>
      let st' : LoopState :=
        { st with
          toolResults := st.toolResults ++
            [{ tool := tc.name, arguments := functionArgs, result := w,
               requiresPermission := tc.name ∈ mutatingTools,
               userApproved := if tc.name ∈ mutatingTools then some autoApprove else none }],
          conversation := addToolRecToLast st.conversation
            { function := tc.name, arguments := functionArgs, result := w },
          messages := st.messages ++
            [{ role := "tool", content := dumpFeedback w,
               toolCallId := some (tc.id.getD ("call_" ++ toString st.messages.length)),
               toolCalls := none }],
          toolCallCount := st.toolCallCount + 1 }
      runToolCalls env autoApprove rest st'

/-- The `for iteration in range(max_iterations)` loop of `chat_with_tools`:
`fuel` counts the remaining iterations and `k` the completed ones (so the
current iteration index is `k`, and the LLM call of iteration `k` is
`net k`). -/
def chatLoop (env : ChatEnv) (llmBackend modelName : String) (autoApprove : Bool)
    (tools : Option (List RDict)) : Nat → Nat → LoopState → LoopOut
  | 0, k, st => LoopOut.done st (if k = 0 then none else some k)
  | fuel + 1, k, st =>
    let lower := toLowerPy llmBackend
    if lower = "groq" ∨ lower = "openai" ∨ lower = "ollama" then
      let req : LLMRequest :=
        { backend := llmBackend, model := modelName, messages := st.messages,
          tools := if lower = "ollama" then none else some (tools.getD []) }
      let st1 := { st with requests := st.requests ++ [req] }
      match env.net k with
      | Except.error e => LoopOut.failed st1 e
      | Except.ok (content, toolCalls) =>
        let messageContent := content.getD ""
        let assistantMsg : Message :=
          { role := "assistant", content := messageContent, toolCallId := none,
            toolCalls :=
              if toolCalls = [] then none
              else some (toolCalls.enum.map fun p =>
                { id := p.2.id.getD ("call_" ++ toString p.1),
                  name := p.2.name, arguments := p.2.arguments }) }
        let st2 := { st1 with
          messages := st1.messages ++ [assistantMsg],
          conversation := st1.conversation ++
            [{ role := "assistant", content := messageContent, toolCalls := [] }] }
        if toolCalls = [] then LoopOut.done st2 (some (k + 1))
        else
          match runToolCalls env autoApprove toolCalls st2 with
          | Except.error (st3, e) => LoopOut.failed st3 e
          | Except.ok st3 => chatLoop env llmBackend modelName autoApprove tools fuel (k + 1) st3
    else LoopOut.failed st ("Unsupported backend: " ++ llmBackend)

/-- `QASystem.chat_with_tools`: initial retrieval, system prompt, the
bounded tool loop, and the outermost catch-all.  Returns the structured
result together with the spy list of outgoing LLM requests. -/
def chatWithTools (env : ChatEnv) (question llmBackend modelName : String)
    (maxIterations : Nat) (autoApprove useTools : Bool) :
    ChatResult × List LLMRequest :=
  let maxResults := if toLowerPy llmBackend = "ollama" then 3 else 5
  match env.search question maxResults true with
  | Except.error e => (failureChatResult e, [])
  | Except.ok searchResults =>
    let contextDocs := buildContextDocs searchResults maxResults
    let context := buildContextString contextDocs
    match env.machineInfo with
    | Except.error e => (failureChatResult e, [])
    | Except.ok machineInfo =>
      match env.buildSystemPrompt question context llmBackend machineInfo useTools with
      | Except.error e => (failureChatResult e, [])
      | Except.ok systemPrompt =>
        let messages0 : List Message :=
          { role := "system", content := systemPrompt } ::
            env.history ++
              [{ role := "user",
                 content :=
                   if question ≠ "" then question
                   else "Hello, I need help with BeagleBoard development." }]
        let tools : Option (List RDict) :=
          if toLowerPy llmBackend = "groq" ∨ toLowerPy llmBackend = "openai" then
            some ((if useTools then env.availableTools else []) ++ [env.retrieveToolDef])
          else none
        let st0 : LoopState :=
          { messages := messages0, conversation := [], toolResults := [],
            requests := [], toolCallCount := 0 }
        match chatLoop env llmBackend modelName autoApprove tools maxIterations 0 st0 with
        | LoopOut.failed st e => (failureChatResult e, st.requests)
        | LoopOut.done st none =>
          -- `max_iterations = 0`: `iterations_used` reads the unbound
          -- `iteration` variable and the `NameError` hits the catch-all
          (failureChatResult "name 'iteration' is not defined", st.requests)
        | LoopOut.done st (some iterPlusOne) =>
          ({ success := true,
             answer := match st.conversation.getLast? with
               | some entry => entry.content
               | none => "No response generated",
             error := none,
             conversation := st.conversation,
             toolResults := st.toolResults,
             sources := prepareLoopSources contextDocs,
             iterationsUsed := some iterPlusOne }, st.requests)

/-! ## Concrete environments used to instantiate the theorems -/

/-- A tool environment with trivial oracles. -/
def trivialToolEnv : ToolEnv :=
  { home := "/root", cwd := "/root", safePath := id, dirExists := fun _ => true,
    jsonLoadsV := fun _ => none, sub := fun _ _ _ => SubOutcome.completed 0 "" "",
    readFileO := fun _ => Except.ok [("success", JVal.b true)],
    listDirectoryO := fun _ => Except.ok [("success", JVal.b true)],
    searchInFilesO := fun _ => Except.ok [("success", JVal.b true)],
    showDirectoryTreeO := fun _ => Except.ok [("success", JVal.b true)],
    machineInfoO := fun _ => Except.ok [("success", JVal.b true)],
    analyzeCodeO := fun _ => Except.ok [("success", JVal.b true)] }

/-- A retrieval-and-LLM environment where retrieval finds nothing (and
reports itself unreachable) and every LLM backend raises. -/
def ragEnvAllDown : RagEnv :=
  { search := fun _ _ _ =>
      some { documents := [[]], metadatas := [[]], retrievalOk := some false },
    history := [],
    net := fun _ _ _ => Except.error "connection refused",
    generatePrompt := fun _ _ => "" }

/-- A chat environment whose LLM stub requests a tool call in every
response and whose tool executions succeed. -/
def chatEnvAlwaysTools : ChatEnv :=
  { search := fun _ _ _ => Except.ok none,
    machineInfo := Except.ok [],
    buildSystemPrompt := fun _ _ _ _ _ => Except.ok "system prompt",
    history := [],
    availableTools := [],
    retrieveToolDef := [("type", JVal.s "function")],
    net := fun _ => Except.ok (some "still working",
      [{ id := some "call_a", name := "run_command",
         arguments := "\x7b\"command\": \"ls\"\x7d" }]),
    jsonLoads := fun _ => some [("command", JVal.s "ls")],
    execFeedback := fun _ _ _ _ => Except.ok
      { result := [("success", JVal.b true)], requiresPermission := false,
        userApproved := none } }

/-- A chat environment whose retrieval raises. -/
def chatEnvSearchDown : ChatEnv :=
  { chatEnvAlwaysTools with search := fun _ _ _ => Except.error "boom" }

/-- A chat environment whose LLM stub answers without tool calls. -/
def chatEnvNoToolCalls : ChatEnv :=
  { chatEnvAlwaysTools with net := fun _ => Except.ok (some "done", []) }

/-! # Theorems

General helper lemmas first, then one theorem (with its witness or
counterexample) per verified property. -/

theorem dropWhile_append_all {p : Char → Bool} (w l : List Char)
    (hw : ∀ c ∈ w, p c) : (w ++ l).dropWhile p = l.dropWhile p := by
  induction w with
  | nil => rfl
  | cons c t ih =>
    have hc : p c := hw c (by simp)
    simp only [List.cons_append, List.dropWhile_cons, hc, if_true]
    exact ih fun d hd => hw d (by simp [hd])

theorem takeWhile_eq_self_of_all {p : Char → Bool} (l : List Char)
    (h : ∀ c ∈ l, p c) : l.takeWhile p = l := by
  induction l with
  | nil => rfl
  | cons c t ih =>
    have hc : p c := h c (by simp)
    simp only [List.takeWhile_cons, hc, if_true]
    exact congrArg (c :: ·) (ih fun d hd => h d (by simp [hd]))

theorem mem_dropWhile_of_mem {p : Char → Bool} {c : Char} {l : List Char}
    (hm : c ∈ l) (hc : ¬ p c) : c ∈ l.dropWhile p := by
  induction l with
  | nil => cases hm
  | cons d t ih =>
    by_cases hd : p d
    · simp only [List.dropWhile_cons, hd, if_true]
      rcases List.mem_cons.mp hm with h | h
      · exact absurd (h ▸ hd) hc
      · exact ih h
    · simpa [List.dropWhile_cons, hd] using hm

theorem mem_stripChars_of_mem {c : Char} {l : List Char}
    (hm : c ∈ l) (hc : ¬ isSpacePy c) : c ∈ stripChars l := by
  unfold stripChars
  rw [List.mem_reverse]
  apply mem_dropWhile_of_mem _ hc
  rw [List.mem_reverse]
  exact mem_dropWhile_of_mem hm hc

theorem pyWordsAux_ne_nil_of_cur {cur : List Char} (l : List Char)
    (h : cur ≠ []) : pyWordsAux cur l ≠ [] := by
  induction l generalizing cur with
  | nil => simpa [pyWordsAux, h] using by simp
  | cons c t ih =>
    by_cases hc : isSpacePy c
    · simp [pyWordsAux, hc, h]
    · simpa [pyWordsAux, hc] using ih (by simp)

theorem pyWordsAux_ne_nil {cur : List Char} {l : List Char}
    (h : ∃ c ∈ l, ¬ isSpacePy c) : pyWordsAux cur l ≠ [] := by
  induction l generalizing cur with
  | nil => rcases h with ⟨c, hc, _⟩; cases hc
  | cons c t ih =>
    by_cases hc : isSpacePy c
    · rcases h with ⟨d, hd, hds⟩
      rcases List.mem_cons.mp hd with h1 | h1
      · exact absurd (h1 ▸ hc) hds
      · by_cases hcur : cur = []
        · simpa [pyWordsAux, hc, hcur] using ih ⟨d, h1, hds⟩
        · simp [pyWordsAux, hc, hcur]
    · simpa [pyWordsAux, hc] using pyWordsAux_ne_nil_of_cur t (by simp)

theorem nil_not_mem_pyWordsAux (cur : List Char) (l : List Char) :
    [] ∉ pyWordsAux cur l := by
  induction l generalizing cur with
  | nil =>
    by_cases hcur : cur = [] <;> simp [pyWordsAux, hcur]
  | cons c t ih =>
    by_cases hc : isSpacePy c
    · by_cases hcur : cur = []
      · simpa [pyWordsAux, hc, hcur] using ih []
      · simp only [pyWordsAux, hc, if_true, hcur, if_false, List.mem_cons]
        rintro (h | h)
        · exact hcur (by simpa using congrArg List.reverse h.symm)
        · exact ih [] h
    · simpa [pyWordsAux, hc] using ih (c :: cur)

theorem joinSpace_ne_nil {ws : List (List Char)} (hne : ws ≠ [])
    (hnil : [] ∉ ws) : joinSpace ws ≠ [] := by
  match ws with
  | [] => exact absurd rfl hne
  | [w] =>
    have : w ≠ [] := by simpa using hnil
    simpa [joinSpace] using this
  | w :: w' :: rest => simp [joinSpace]

theorem collapseChars_ne_nil {l : List Char} (h : ∃ c ∈ l, ¬ isSpacePy c) :
    collapseChars l ≠ [] := by
  unfold collapseChars pyWords
  exact joinSpace_ne_nil (pyWordsAux_ne_nil h) (nil_not_mem_pyWordsAux [] l)

theorem mkStr_ne_empty {l : List Char} (h : l ≠ []) : (⟨l⟩ : String) ≠ "" := by
  intro hc
  exact h (congrArg String.data hc)

/-! ### C4: the command-argument recovery parser -/

theorem dropWhile_space_quote (w r : List Char) (hw : ∀ c ∈ w, isSpacePy c) :
    (w ++ '"' :: r).dropWhile isSpacePy = '"' :: r := by
  rw [dropWhile_append_all w _ hw, List.dropWhile_cons]
  simp [isSpacePy]

theorem cmdP1At_unterminated (w r : List Char) (hw : ∀ c ∈ w, isSpacePy c)
    (hr : ∀ c ∈ r, c ≠ '"') : cmdP1At (w ++ '"' :: r) = none := by
  unfold cmdP1At
  rw [dropWhile_space_quote w r hw]
  simp only [List.head?_cons, List.tail_cons]
  rw [takeWhile_eq_self_of_all r (by intro c hc; simpa using hr c hc)]
  simp

theorem cmdP2At_unterminated (w r : List Char) (hw : ∀ c ∈ w, isSpacePy c) :
    cmdP2At (w ++ '"' :: r) = some (cmdLazyGroup r) := by
  unfold cmdP2At
  rw [dropWhile_space_quote w r hw]
  simp

theorem parseToolArguments_run_command (jl : String → Option RDict) (s : String)
    (h : jl s = none) :
    parseToolArguments jl s "run_command" = parseCommandArguments s := by
  unfold parseToolArguments
  rw [h]
  rfl

theorem cmdLazyGroup_mem {r : List Char} (hr : ∀ c ∈ r, c ≠ '"')
    (hwit : ∃ c ∈ r, ¬ isSpacePy c) : ∃ c ∈ cmdLazyGroup r, ¬ isSpacePy c := by
  unfold cmdLazyGroup
  rw [takeWhile_eq_self_of_all r (by intro c hc; simpa using hr c hc)]
  simp only [lt_irrefl, if_false]
  rcases hL : r.getLast? with _ | c
  · exact hwit
  · by_cases hnl : c = '\n'
    · subst hnl
      simp only [if_pos rfl]
      rcases hwit with ⟨d, hd, hds⟩
      have hne : r ≠ [] := by
        intro h
        rw [h] at hL
        cases hL
      have hsplit := List.dropLast_append_getLast hne
      have hlastval : r.getLast hne = '\n' := by
        have := List.getLast?_eq_getLast r hne
        rw [hL] at this
        exact (Option.some.injEq _ _).mp this.symm
      rcases List.mem_append.mp (by rw [hsplit]; exact hd) with h1 | h1
      · exact ⟨d, h1, hds⟩
      · exfalso
        rw [hlastval] at h1
        have : d = '\n' := by simpa using h1
        exact hds (by rw [this]; decide)
    · simp only [if_neg hnl]
      exact hwit

theorem parseCommandArguments_shape (s : String) :
    ∃ cmd, parseCommandArguments s = [("command", JVal.s cmd)] := by
  unfold parseCommandArguments cmdLineScan
  repeat' split
  all_goals exact ⟨_, rfl⟩

/-- C4 (corrected).  For every argument string on which `json.loads` fails
and tool name `run_command`, the parser returns a mapping with a `command`
key without raising; and when the string contains a `"command"` field whose
opening quote is unterminated (no later double quote), the recovered value
is the whitespace-collapsed text after the opening quote, which is
non-empty whenever that text contains a non-whitespace character.  (The
original claim asserted non-emptiness unconditionally; `C4_counterexample`
shows a whitespace-only remainder yields the empty command.) -/
theorem C4_command_parser_recovery (jl : String → Option RDict) :
    (∀ s, jl s = none →
      ∃ cmd, parseToolArguments jl s "run_command" = [("command", JVal.s cmd)]) ∧
    (∀ (s : String) (w r : List Char), jl s = none →
      keySuffixes cmdKey s.toList = [w ++ '"' :: r] →
      (∀ c ∈ w, isSpacePy c) → (∀ c ∈ r, c ≠ '"') →
      (∃ c ∈ r, ¬ isSpacePy c) →
      ∃ cmd, parseToolArguments jl s "run_command" =
        [("command", JVal.s cmd)] ∧ cmd ≠ "") := by
  constructor
  · intro s hjson
    rw [parseToolArguments_run_command jl s hjson]
    exact parseCommandArguments_shape s
  · intro s w r hjson hocc hw hr hwit
    have h1 : firstSome cmdP1At (keySuffixes cmdKey s.toList) = none := by
      rw [hocc]
      simp [firstSome, cmdP1At_unterminated w r hw hr]
    have h2 : firstSome cmdP2At (keySuffixes cmdKey s.toList) = some (cmdLazyGroup r) := by
      rw [hocc]
      simp [firstSome, cmdP2At_unterminated w r hw]
    have hparse : parseToolArguments jl s "run_command" =
        [("command", JVal.s ⟨collapseChars (stripChars (cmdLazyGroup r))⟩)] := by
      rw [parseToolArguments_run_command jl s hjson]
      unfold parseCommandArguments
      simp only [h1, h2]
    refine ⟨_, hparse, ?_⟩
    apply mkStr_ne_empty
    apply collapseChars_ne_nil
    rcases cmdLazyGroup_mem hr hwit with ⟨c, hc, hcs⟩
    exact ⟨c, mem_stripChars_of_mem hc hcs, hcs⟩

/-- C4 counterexample: the malformed string `{"command": "` (opening quote
present, closing quote missing, nothing after it) recovers the EMPTY
command, refuting the unconditional non-emptiness of the original claim. -/
theorem C4_counterexample :
    parseToolArguments (fun _ => none) "\x7b\"command\": \"" "run_command" =
      [("command", JVal.s "")] := by
  decide

/-- C4 witness: both parts of the theorem applied at the concrete
unterminated string `{"command": "ls -la`. -/
theorem C4_witness :
    (∃ cmd, parseToolArguments (fun _ => none) "\x7b\"command\": \"ls -la" "run_command" =
      [("command", JVal.s cmd)]) ∧
    (∃ cmd, parseToolArguments (fun _ => none) "\x7b\"command\": \"ls -la" "run_command" =
      [("command", JVal.s cmd)] ∧ cmd ≠ "") := by
  constructor
  · exact (C4_command_parser_recovery (fun _ => none)).1 _ rfl
  · exact (C4_command_parser_recovery (fun _ => none)).2 "\x7b\"command\": \"ls -la"
      [' '] "ls -la".toList rfl (by decide) (by decide) (by decide) (by decide)

/-! ### C6: the permission gate -/

/-- C6 (confirmed).  A mutating tool call (`write_file` or
`edit_file_lines`) with `auto_approve = false` whose first decisive console
answer is "no" yields the `user_denied` cancellation result without
invoking the underlying tool; any non-mutating tool (in particular
`run_command` and `retrieve_context`) is dispatched immediately, with no
approval prompt shown. -/
theorem C6_permission_gate (env : ToolEnv) (fs : FS) :
    (∀ answers name args, name ∈ ["write_file", "edit_file_lines"] →
      firstDecision answers = some false →
      executeToolWithFeedback env fs answers name args false =
        some ({ result := cancelledResult, requiresPermission := true,
                userApproved := some false },
          fs, { toolInvoked := false, prompted := true }, [])) ∧
    (∀ answers name args autoApprove, name ∉ ["write_file", "edit_file_lines"] →
      executeToolWithFeedback env fs answers name args autoApprove =
        some ({ result := (executeTool env fs name args).1,
                requiresPermission := false, userApproved := none },
          (executeTool env fs name args).2.1,
          { toolInvoked := true, prompted := false },
          (executeTool env fs name args).2.2)) := by
  constructor
  · intro answers name args hmem hno
    have hm : name = "write_file" ∨ name = "edit_file_lines" := by simpa using hmem
    rcases hm with h | h <;> subst h <;>
      simp [executeToolWithFeedback, hno]
  · intro answers name args autoApprove hmem
    rcases hE : executeTool env fs name args with ⟨r, fs', subs⟩
    by_cases hrc : name = "retrieve_context"
    · subst hrc
      simp [executeToolWithFeedback, hE]
    · simp [executeToolWithFeedback, hrc, hmem, hE]

/-- C6 witness: a denied `write_file` and an unprompted `run_command`
against the trivial environment. -/
theorem C6_witness :
    executeToolWithFeedback trivialToolEnv [] ["no"] "write_file"
        [("file_path", JVal.s "a.txt"), ("content", JVal.s "hi")] false =
      some ({ result := cancelledResult, requiresPermission := true,
              userApproved := some false },
        [], { toolInvoked := false, prompted := true }, []) ∧
    executeToolWithFeedback trivialToolEnv [] [] "run_command"
        [("command", JVal.s "ls")] false =
      some ({ result := (executeTool trivialToolEnv [] "run_command"
                [("command", JVal.s "ls")]).1,
              requiresPermission := false, userApproved := none },
        (executeTool trivialToolEnv [] "run_command" [("command", JVal.s "ls")]).2.1,
        { toolInvoked := true, prompted := false },
        (executeTool trivialToolEnv [] "run_command" [("command", JVal.s "ls")]).2.2) :=
  ⟨(C6_permission_gate trivialToolEnv []).1 ["no"] _ _ (by decide) (by decide),
   (C6_permission_gate trivialToolEnv []).2 [] _ _ false (by decide)⟩

/-! ### C8: the run_command deny-list -/

/-- C8 (corrected).  For a command matching the deny-list, `run_command`
returns the `Command blocked for security reasons` failure and never
invokes the subprocess layer — provided the working-directory argument,
when supplied and non-empty, resolves to an existing directory (the
original claim omitted this proviso: the working-directory check runs
first, see `C8_counterexample`).  Whatever the working directory, the
subprocess layer is never invoked for a deny-listed command. -/
theorem C8_run_command_blocked (dirExists : String → Bool) (safePath : String → String)
    (cwd : String) (sub : String → String → Int → SubOutcome)
    (command : String) (timeout : Int)
    (hdanger : isDangerousCommand command = true) :
    (∀ workingDirectory : Option String,
      (∀ w, workingDirectory = some w → w ≠ "" → dirExists (safePath w) = true) →
      runCommand dirExists safePath cwd sub command workingDirectory timeout =
        ([("success", JVal.b false),
          ("error", JVal.s ("Command blocked for security reasons: " ++ command))], [])) ∧
    (∀ workingDirectory : Option String,
      (runCommand dirExists safePath cwd sub command workingDirectory timeout).2 = []) := by
  constructor
  · intro workingDirectory hwd
    unfold runCommand
    cases workingDirectory with
    | none => simp [runCommandExec, hdanger]
    | some wd =>
      by_cases hne : wd = ""
      · simp [hne, runCommandExec, hdanger]
      · have hex := hwd wd rfl hne
        simp [hne, hex, runCommandExec, hdanger]
  · intro workingDirectory
    unfold runCommand
    cases workingDirectory with
    | none => simp [runCommandExec, hdanger]
    | some wd =>
      by_cases hne : wd = ""
      · simp [hne, runCommandExec, hdanger]
      · by_cases hex : dirExists (safePath wd) = true <;>
          simp [hne, hex, runCommandExec, hdanger]

/-- C8 counterexample: `sudo rm -rf /` is deny-listed, yet with a
non-existent working directory the result is the working-directory error,
whose text does not mention the block (the subprocess layer is still not
invoked). -/
theorem C8_counterexample :
    isDangerousCommand "sudo rm -rf /" = true ∧
    runCommand (fun _ => false) id "/root" (fun _ _ _ => SubOutcome.completed 0 "" "")
        "sudo rm -rf /" (some "/nonexistent") 30 =
      ([("success", JVal.b false),
        ("error", JVal.s "Working directory not found: /nonexistent")], []) := by
  constructor
  · decide
  · decide

/-- C8 witness: `run_command("sudo rm -rf /")` without a working directory
is blocked before execution. -/
theorem C8_witness :
    runCommand (fun _ => true) id "/root" (fun _ _ _ => SubOutcome.completed 0 "" "")
        "sudo rm -rf /" none 30 =
      ([("success", JVal.b false),
        ("error", JVal.s "Command blocked for security reasons: sudo rm -rf /")], []) ∧
    (runCommand (fun _ => true) id "/root" (fun _ _ _ => SubOutcome.completed 0 "" "")
        "sudo rm -rf /" none 30).2 = [] :=
  ⟨(C8_run_command_blocked (fun _ => true) id "/root"
      (fun _ _ _ => SubOutcome.completed 0 "" "") "sudo rm -rf /" 30 (by decide)).1
      none (by intro w h; simp at h),
   (C8_run_command_blocked (fun _ => true) id "/root"
      (fun _ _ _ => SubOutcome.completed 0 "" "") "sudo rm -rf /" 30 (by decide)).2 none⟩

/-! ### C10: write_file escape-sequence cleanup -/

theorem subCount_eq_zero {sub l : List Char} (h : hasSub sub l = false) :
    subCount sub l = 0 := by
  induction l with
  | nil => simp [subCount]
  | cons c t ih =>
    simp only [hasSub, Bool.or_eq_false_iff] at h
    simp [subCount, h.1, ih h.2]

theorem one_le_subCount {sub l : List Char} (hne : sub ≠ [])
    (h : hasSub sub l = true) : 1 ≤ subCount sub l := by
  induction l with
  | nil =>
    exfalso
    cases sub with
    | nil => exact hne rfl
    | cons a as => simp [hasSub, leadsWith] at h
  | cons c t ih =>
    by_cases hl : leadsWith sub (c :: t) = true
    · simp [subCount, hne, hl]
    · simp only [hasSub, Bool.or_eq_true] at h
      rcases h with h | h
      · exact absurd h hl
      · simp only [subCount, hl]

        simpa [hne, hl] using ih h

theorem cleanContent_eq_spec (content : String) :
    cleanContent content = cleanContentSpec content := by
  unfold cleanContent cleanContentSpec
  by_cases h1 : pyIn "\\n" content = true
  · by_cases h2 : pyIn "\n" content = true
    · simp [h1, h2]
    · have hz : pyCount content "\n" = 0 := subCount_eq_zero (by simpa [pyIn] using h2)
      have ho : 1 ≤ pyCount content "\\n" :=
        one_le_subCount (by decide) (by simpa [pyIn] using h1)
      have hgt : pyCount content "\n" < pyCount content "\\n" := by omega
      simp [h1, h2, hgt]
  · have hz : pyCount content "\\n" = 0 := subCount_eq_zero (by simpa [pyIn] using h1)
    have hngt : ¬ pyCount content "\n" < pyCount content "\\n" := by omega
    simp [h1, hngt]

/-- C10 (confirmed).  `write_file` writes `cleanContentSpec content`: the
escape artifacts `\t`, `\"`, `\'` are replaced unconditionally and literal
`\n` only when literal `\n` sequences outnumber real newlines; the
`content_cleaned` flag is true exactly when the written text differs from
the content argument. -/
theorem C10_write_file_cleaning (safePath : String → String) (fs : FS)
    (filePath content : String) :
    cleanContent content = cleanContentSpec content ∧
    (writeFileCore safePath fs filePath content).2 =
      fsSet fs (safePath filePath) (cleanContentSpec content) ∧
    dget (writeFileCore safePath fs filePath content).1 "content_cleaned" =
      some (JVal.b (cleanContentSpec content ≠ content)) := by
  have he := cleanContent_eq_spec content
  refine ⟨he, ?_, ?_⟩
  · unfold writeFileCore
    simp [he]
  · unfold writeFileCore
    simp [dget, he]

/-! ### C7: edit_file_lines -/

theorem mem_insDesc {α : Type} (key : α → Int) (x a : α) (l : List α) :
    a ∈ insDesc key x l ↔ a = x ∨ a ∈ l := by
  induction l with
  | nil => simp [insDesc]
  | cons y ys ih =>
    unfold insDesc
    by_cases hc : key x < key y
    · simp only [if_pos hc, List.mem_cons, ih]
      try tauto
    · simp only [if_neg hc, List.mem_cons]
      try tauto

theorem sorted_insDesc {α : Type} (key : α → Int) (x : α) {l : List α}
    (h : l.Sorted fun a b => key b ≤ key a) :
    (insDesc key x l).Sorted fun a b => key b ≤ key a := by
  induction l with
  | nil => simp [insDesc]
  | cons y ys ih =>
    rw [List.sorted_cons] at h
    obtain ⟨hy, hys⟩ := h
    unfold insDesc
    by_cases hc : key x < key y
    · rw [if_pos hc, List.sorted_cons]
      refine ⟨?_, ih hys⟩
      intro b hb
      rcases (mem_insDesc key x b ys).mp hb with rfl | hb
      · exact le_of_lt hc
      · exact hy b hb
    · rw [if_neg hc, List.sorted_cons]
      push_neg at hc
      refine ⟨?_, by rw [List.sorted_cons]; exact ⟨hy, hys⟩⟩
      intro b hb
      rcases List.mem_cons.mp hb with rfl | hb
      · exact hc
      · exact le_trans (hy b hb) hc

theorem sorted_sortDesc {α : Type} (key : α → Int) (l : List α) :
    (sortDesc key l).Sorted fun a b => key b ≤ key a := by
  induction l with
  | nil => simp [sortDesc]
  | cons x xs ih => exact sorted_insDesc key x ih

/-- C7 (confirmed).  `edit_file_lines` applies the edits in descending
line-number order (the item list it folds over is sorted with weakly
decreasing keys, so an edit never shifts the index of a lower-numbered
line before that line is edited); a missing file yields an error result;
and on a 5-line file the edits `{"2": "", "5": "X\nY"}` delete original
line 2 and replace original line 5 with the two lines `X` and `Y`. -/
theorem C7_edit_file_lines :
    (∀ {α : Type} (key : α → Int) (l : List α),
      (sortDesc key l).Sorted fun a b => key b ≤ key a) ∧
    (∀ (home : String) (fs : FS) (filePath : String) (edits : List (String × String)),
      fsGet fs (expanduser home filePath) = none →
      editFileLinesCore home fs filePath edits =
        ([("error", JVal.s ("File not found: " ++ filePath))], fs)) ∧
    (editFileLinesCore "/h" [("f.txt", "l1\nl2\nl3\nl4\nl5\n")] "f.txt"
        [("2", ""), ("5", "X\nY")] =
      ([("success", JVal.b true), ("file_path", JVal.s "f.txt"),
        ("lines_edited", JVal.strs ["2", "5"]), ("total_lines", JVal.i 5)],
       [("f.txt", "l1\nl3\nl4\nX\nY\n")])) := by
  refine ⟨fun key l => sorted_sortDesc key l, ?_, ?_⟩
  · intro home fs filePath edits h
    simp only [editFileLinesCore]
    rw [h]
  · decide

/-- C7 witness: the descending sort applied to the example's edit items,
and the missing-file error on an empty filesystem. -/
theorem C7_witness :
    ((sortDesc (fun kv : String × String => (pyToInt kv.1).getD 0)
        [("2", ""), ("5", "X\nY")]).Sorted
      fun a b => (pyToInt b.1).getD 0 ≤ (pyToInt a.1).getD 0) ∧
    editFileLinesCore "/h" [] "missing.txt" [("1", "x")] =
      ([("error", JVal.s "File not found: missing.txt")], []) :=
  ⟨C7_edit_file_lines.1 _ _,
   C7_edit_file_lines.2.1 "/h" [] "missing.txt" [("1", "x")] (by decide)⟩

/-! ### C5: the tool dispatcher's success flag -/

theorem writeFileCore_success_key (sp : String → String) (fs : FS) (p c : String) :
    dget (writeFileCore sp fs p c).1 "success" = some (JVal.b true) := rfl

theorem runCommand_success_key (de : String → Bool) (sp : String → String)
    (cwd : String) (sub : String → String → Int → SubOutcome)
    (command : String) (wd : Option String) (timeout : Int) :
    ∃ b, dget (runCommand de sp cwd sub command wd timeout).1 "success" =
      some (JVal.b b) := by
  unfold runCommand runCommandExec
  repeat' split
  all_goals exact ⟨_, rfl⟩

theorem editFileLines_success_or_error (jl : String → Option JVal) (home : String)
    (fs : FS) (args : RDict) :
    (∃ b, dget (editFileLines jl home fs args).1 "success" = some (JVal.b b)) ∨
    (dget (editFileLines jl home fs args).1 "success" = none ∧
      ∃ m, dget (editFileLines jl home fs args).1 "error" = some (JVal.s m)) := by
  simp only [editFileLines, editFileLinesCore]
  repeat' split
  all_goals
    first
    | exact Or.inl ⟨_, rfl⟩
    | exact Or.inr ⟨rfl, _, rfl⟩

/-- C5 (corrected).  The dispatcher refuses unknown tool names with the
exact `Unknown tool` failure and converts any exception escaping a tool
body into the `Tool execution error` failure; `write_file` and
`run_command` results always carry a boolean `success` key — but the
error paths of `edit_file_lines` return a mapping holding only an `error`
key, with no `success` flag (see `C5_counterexample`), so "every
non-exceptional tool result carries the success flag" fails there. -/
theorem C5_dispatcher_success_key :
    (∀ (env : ToolEnv) (fs : FS) (name : String) (kwargs : RDict),
      name ∉ knownToolNames →
      executeTool env fs name kwargs =
        ([("success", JVal.b false), ("error", JVal.s ("Unknown tool: " ++ name))],
          fs, [])) ∧
    (∀ (env : ToolEnv) (fs : FS) (name : String) (kwargs : RDict) (e : String),
      name ∈ knownToolNames →
      runKnownTool env fs name kwargs = Except.error e →
      executeTool env fs name kwargs =
        ([("success", JVal.b false),
          ("error", JVal.s ("Tool execution error: " ++ e))], fs, [])) ∧
    (∀ (sp : String → String) (fs : FS) (p c : String),
      dget (writeFileCore sp fs p c).1 "success" = some (JVal.b true)) ∧
    (∀ (de : String → Bool) (sp : String → String) (cwd : String)
      (sub : String → String → Int → SubOutcome) (command : String)
      (wd : Option String) (timeout : Int),
      ∃ b, dget (runCommand de sp cwd sub command wd timeout).1 "success" =
        some (JVal.b b)) ∧
    (∀ (jl : String → Option JVal) (home : String) (fs : FS) (args : RDict),
      (∃ b, dget (editFileLines jl home fs args).1 "success" = some (JVal.b b)) ∨
      (dget (editFileLines jl home fs args).1 "success" = none ∧
        ∃ m, dget (editFileLines jl home fs args).1 "error" = some (JVal.s m))) := by
  refine ⟨?_, ?_, writeFileCore_success_key, runCommand_success_key,
    editFileLines_success_or_error⟩
  · intro env fs name kwargs hmem
    unfold executeTool
    rw [if_pos hmem]
  · intro env fs name kwargs e hmem herr
    unfold executeTool
    rw [if_neg (by simpa using hmem), herr]

/-- C5 counterexample: dispatching `edit_file_lines` on a missing file
returns (non-exceptionally) a mapping with an `error` entry but NO
`success` key. -/
theorem C5_counterexample :
    dget (executeTool trivialToolEnv [] "edit_file_lines"
        [("file_path", JVal.s "missing.txt"), ("edits", JVal.strMap [("1", "x")])]).1
      "success" = none ∧
    dget (executeTool trivialToolEnv [] "edit_file_lines"
        [("file_path", JVal.s "missing.txt"), ("edits", JVal.strMap [("1", "x")])]).1
      "error" = some (JVal.s "File not found: missing.txt") := by
  constructor
  · decide
  · decide

/-- C5 witness: the unknown-tool shape at a made-up name, the exception
conversion at a `write_file` call missing its required arguments, and the
success flags of the modelled tools at concrete inputs. -/
theorem C5_witness :
    executeTool trivialToolEnv [] "frobnicate" [] =
      ([("success", JVal.b false), ("error", JVal.s "Unknown tool: frobnicate")],
        [], []) ∧
    executeTool trivialToolEnv [] "write_file" [] =
      ([("success", JVal.b false),
        ("error", JVal.s
          "Tool execution error: write_file() missing required positional argument")],
        [], []) ∧
    (∃ b, dget (runCommand (fun _ => true) id "/root"
        (fun _ _ _ => SubOutcome.completed 0 "" "") "ls" none 30).1 "success" =
      some (JVal.b b)) :=
  ⟨C5_dispatcher_success_key.1 trivialToolEnv [] "frobnicate" [] (by decide),
   C5_dispatcher_success_key.2.1 trivialToolEnv [] "write_file" [] _ (by decide) rfl,
   C5_dispatcher_success_key.2.2.2.1 (fun _ => true) id "/root"
     (fun _ _ _ => SubOutcome.completed 0 "" "") "ls" none 30⟩

/-! ### C9: the degraded non-tool fallback path -/

theorem leadsWith_append_self (l r : List Char) : leadsWith l (l ++ r) = true := by
  induction l with
  | nil => rfl
  | cons c t ih => simpa [leadsWith] using ih

theorem startsWithPy_append (pre rest : String) :
    startsWithPy pre (pre ++ rest) = true := by
  unfold startsWithPy
  have hd : (pre ++ rest).toList = pre.toList ++ rest.toList := String.data_append pre rest
  rw [hd]
  exact leadsWith_append_self _ _

theorem getResponse_error_prefixed (net : String → String → String → Except String String)
    (b model prompt e : String) (he : net b model prompt = Except.error e) :
    startsWithPy "Error getting response from" (getResponse net b model prompt) = true := by
  unfold getResponse
  rw [he]
  have hsplit : "Error getting response from " ++ backendErrName b ++ ": " ++ e =
      "Error getting response from" ++ (" " ++ backendErrName b ++ (": " ++ e)) := by
    simp [← String.append_assoc]
  rw [show (match (Except.error e : Except String String) with
      | Except.ok s => s
      | Except.error e => "Error getting response from " ++ backendErrName b ++ ": " ++ e) =
      "Error getting response from " ++ backendErrName b ++ ": " ++ e from rfl]
  rw [hsplit]
  exact startsWithPy_append _ _

theorem fallbackLoop_none (net : String → String → String → Except String String)
    (prompt model : String)
    (hnet : ∀ b m p, ∃ e, net b m p = Except.error e) :
    ∀ (bs : List String) (lastErr : Option String),
      (fallbackLoop net prompt model bs lastErr).2 = none := by
  intro bs
  induction bs with
  | nil => intro lastErr; rfl
  | cons b rest ih =>
    intro lastErr
    unfold fallbackLoop
    by_cases hb : b = "groq" ∨ b = "openai" ∨ b = "ollama"
    · rw [if_pos hb]
      obtain ⟨e, he⟩ := hnet b model prompt
      rw [if_pos (getResponse_error_prefixed net b model prompt e he)]
      exact ih _
    · rw [if_neg hb]
      exact ih _

theorem append_ne_empty_of_right {a b : String} (h : b ≠ "") : a ++ b ≠ "" := by
  intro hc
  apply h
  have hd : a.data ++ b.data = [] := by
    have := congrArg String.data hc
    rwa [String.data_append] at this
  exact String.ext (List.append_eq_nil.mp hd).2

/-- C9 (corrected).  In the non-tool answering path, when retrieval
returns zero documents and every LLM backend raises, the response carries
a non-empty answer and `sources == []` — but the returned dict contains NO
`success` key at all (`success = none` in the embedding); callers that
read the key default its absence to true, so the degraded path is still
not reported as an error, yet `success == true` as literally claimed does
not hold (see `C9_counterexample`). -/
theorem C9_rag_fallback_degraded (env : RagEnv)
    (question modelName llmBackend : String) (nResults : Nat)
    (hdocs : hasDocs (env.search question
      (if toLowerPy llmBackend = "ollama" then 3 else nResults) true) = false)
    (hnet : ∀ b m p, ∃ e, env.net b m p = Except.error e) :
    (traditionalRagResponse env question nResults modelName llmBackend).success = none ∧
    (traditionalRagResponse env question nResults modelName llmBackend).answer ≠ "" ∧
    (traditionalRagResponse env question nResults modelName llmBackend).sources = [] := by
  have hcall : (callLlmWithFallback env.net (ragFallbackPrompt env.history question)
      llmBackend modelName).2 = none :=
    fallbackLoop_none env.net _ modelName hnet _ none
  unfold traditionalRagResponse
  rw [if_pos (by simp [hdocs])]
  refine ⟨rfl, ?_, rfl⟩
  simp only [hcall]
  exact append_ne_empty_of_right (by decide)

/-- C9 counterexample: with zero retrieved documents and all backends
raising, the response of the non-tool path has NO `success` key (so
`success == true` is false as stated), even though the answer is the
non-empty degraded fallback text and `sources == []`. -/
theorem C9_counterexample :
    (traditionalRagResponse ragEnvAllDown "What is BeagleMind?" 5 "m" "groq").success
        = none ∧
    (traditionalRagResponse ragEnvAllDown "What is BeagleMind?" 5 "m" "groq").answer =
      "Note: retrieval system not configured or unreachable. " ++
        "I couldn't generate an answer right now. Please try again." ∧
    (traditionalRagResponse ragEnvAllDown "What is BeagleMind?" 5 "m" "groq").sources
        = [] := by
  refine ⟨rfl, ?_, rfl⟩
  decide

/-- C9 witness: the amended theorem applied to the all-backends-down
environment. -/
theorem C9_witness :
    (traditionalRagResponse ragEnvAllDown "What is BeagleMind?" 5 "m" "groq").success
        = none ∧
    (traditionalRagResponse ragEnvAllDown "What is BeagleMind?" 5 "m" "groq").answer
        ≠ "" ∧
    (traditionalRagResponse ragEnvAllDown "What is BeagleMind?" 5 "m" "groq").sources
        = [] :=
  C9_rag_fallback_degraded ragEnvAllDown "What is BeagleMind?" "m" "groq" 5
    (by decide) (fun b m p => ⟨"connection refused", rfl⟩)

/-! ### C2: the outermost catch-all of the orchestration loop -/

/-- C2 (confirmed).  Every run of `chat_with_tools` returns either the
success shape or exactly the structured failure
`{success: false, error: "Chat failed: " ++ e, answer: <apology text>}`:
an exception raised by any step (retrieval, machine info, prompt building,
an LLM call, an unsupported backend name, a tool execution, or the
`max_iterations = 0` NameError) reaches only the outermost handler and is
never propagated to the caller. -/
theorem C2_no_exception_escapes (env : ChatEnv) (question llmBackend modelName : String)
    (maxIterations : Nat) (autoApprove useTools : Bool) :
    (chatWithTools env question llmBackend modelName maxIterations
      autoApprove useTools).1.success = true ∨
    ∃ e, (chatWithTools env question llmBackend modelName maxIterations
      autoApprove useTools).1 = failureChatResult e := by
  simp only [chatWithTools]
  repeat' split
  all_goals first
    | exact Or.inl rfl
    | exact Or.inr ⟨_, rfl⟩

/-! ### C3: no tool definitions for the local backend -/

theorem addToolRecToLast_content (conv : List ConvEntry) (r : ConvToolRec) :
    ((addToolRecToLast conv r).getLast?).map ConvEntry.content =
      (conv.getLast?).map ConvEntry.content := by
  unfold addToolRecToLast
  split
  · rfl
  · rename_i last heq
    rw [List.getLast?_concat, heq]
    rfl

theorem runToolCalls_preserves (env : ChatEnv) (aa : Bool) :
    ∀ (tcs : List LLMToolCall) (st : LoopState),
      (∀ st', runToolCalls env aa tcs st = Except.ok st' →
        st'.requests = st.requests ∧
        (st'.conversation.getLast?).map ConvEntry.content =
          (st.conversation.getLast?).map ConvEntry.content) ∧
      (∀ st' e, runToolCalls env aa tcs st = Except.error (st', e) →
        st'.requests = st.requests) := by
  intro tcs
  induction tcs with
  | nil =>
    intro st
    constructor
    · intro st' h
      cases h
      exact ⟨rfl, rfl⟩
    · intro st' e h
      cases h
  | cons tc rest ih =>
    intro st
    constructor
    · intro st' h
      rw [runToolCalls] at h
      rcases hexec : env.execFeedback st.toolCallCount tc.name
          (match env.jsonLoads tc.arguments with
           | some d => d
           | none => parseToolArguments env.jsonLoads tc.arguments tc.name) aa with e | w
      · rw [hexec] at h
        cases h
      · rw [hexec] at h
        dsimp only at h
        have := (ih _).1 st' h
        refine ⟨this.1, ?_⟩
        rw [this.2]
        exact addToolRecToLast_content _ _
    · intro st' e h
      rw [runToolCalls] at h
      rcases hexec : env.execFeedback st.toolCallCount tc.name
          (match env.jsonLoads tc.arguments with
           | some d => d
           | none => parseToolArguments env.jsonLoads tc.arguments tc.name) aa with e' | w
      · rw [hexec] at h
        dsimp only at h
        cases h
        exact rfl
      · rw [hexec] at h
        dsimp only at h
        have h2 := (ih _).2 st' e h
        exact h2

theorem chatLoop_new_requests (env : ChatEnv) (llmBackend modelName : String)
    (aa : Bool) (tools : Option (List RDict)) :
    ∀ (fuel k : Nat) (st : LoopState) (r : LLMRequest),
      r ∈ (chatLoop env llmBackend modelName aa tools fuel k st).state.requests →
      r ∈ st.requests ∨
        ((toLowerPy llmBackend = "groq" ∨ toLowerPy llmBackend = "openai" ∨
            toLowerPy llmBackend = "ollama") ∧
          r.tools = (if toLowerPy llmBackend = "ollama" then none
            else some (tools.getD []))) := by
  intro fuel
  induction fuel with
  | zero =>
    intro k st r hr
    exact Or.inl hr
  | succ fuel ih =>
    intro k st r hr
    rw [chatLoop] at hr
    by_cases hb : toLowerPy llmBackend = "groq" ∨ toLowerPy llmBackend = "openai" ∨
        toLowerPy llmBackend = "ollama"
    · rw [if_pos hb] at hr
      rcases hnet : env.net k with e | p
      · rw [hnet] at hr
        dsimp only [LoopOut.state] at hr
        rcases List.mem_append.mp hr with h1 | h1
        · exact Or.inl h1
        · refine Or.inr ⟨hb, ?_⟩
          simp only [List.mem_singleton] at h1
          rw [h1]
      · obtain ⟨content, toolCalls⟩ := p
        rw [hnet] at hr
        dsimp only at hr
        by_cases htc : toolCalls = []
        · rw [if_pos htc] at hr
          dsimp only [LoopOut.state] at hr
          rcases List.mem_append.mp hr with h1 | h1
          · exact Or.inl h1
          · refine Or.inr ⟨hb, ?_⟩
            simp only [List.mem_singleton] at h1
            rw [h1]
        · rw [if_neg htc] at hr
          rcases hrun : runToolCalls env aa toolCalls _ with p3 | st3
          · obtain ⟨st3, e⟩ := p3
            rw [hrun] at hr
            dsimp only [LoopOut.state] at hr
            have hreq := (runToolCalls_preserves env aa toolCalls _).2 st3 e hrun
            rw [hreq] at hr
            rcases List.mem_append.mp hr with h1 | h1
            · exact Or.inl h1
            · refine Or.inr ⟨hb, ?_⟩
              simp only [List.mem_singleton] at h1
              rw [h1]
          · rw [hrun] at hr
            rcases ih (k + 1) st3 r hr with h1 | h1
            · have hreq := (runToolCalls_preserves env aa toolCalls _).1 st3 hrun
              rw [hreq.1] at h1
              rcases List.mem_append.mp h1 with h2 | h2
              · exact Or.inl h2
              · refine Or.inr ⟨hb, ?_⟩
                simp only [List.mem_singleton] at h2
                rw [h2]
            · exact Or.inr h1
    · rw [if_neg hb] at hr
      exact Or.inl hr

/-- C3 (confirmed).  Every outgoing LLM request recorded by the
orchestration loop carries tool definitions only when the lowered backend
name is `groq` or `openai`; for the local `ollama` backend (even with
`use_tools = true`) every outgoing request carries no tool definitions —
`chat_with_ollama` is invoked without a `tools` argument. -/
theorem C3_ollama_no_tools (env : ChatEnv) (question llmBackend modelName : String)
    (maxIterations : Nat) (autoApprove useTools : Bool) :
    (∀ r ∈ (chatWithTools env question llmBackend modelName maxIterations
        autoApprove useTools).2,
      r.tools.isSome →
        (toLowerPy llmBackend = "groq" ∨ toLowerPy llmBackend = "openai")) ∧
    (toLowerPy llmBackend = "ollama" →
      ∀ r ∈ (chatWithTools env question llmBackend modelName maxIterations
        autoApprove useTools).2, r.tools = none) := by
  have key : ∀ r ∈ (chatWithTools env question llmBackend modelName maxIterations
      autoApprove useTools).2,
      (toLowerPy llmBackend = "groq" ∨ toLowerPy llmBackend = "openai" ∨
          toLowerPy llmBackend = "ollama") ∧
        r.tools = (if toLowerPy llmBackend = "ollama" then none
          else some ((if toLowerPy llmBackend = "groq" ∨ toLowerPy llmBackend = "openai" then
            some ((if useTools then env.availableTools else []) ++ [env.retrieveToolDef])
          else none).getD [])) := by
    intro r hr
    revert hr
    simp only [chatWithTools]
    repeat' split
    all_goals intro hr
    all_goals
      first
      | cases hr
      | (have hkey := (chatLoop_new_requests env llmBackend modelName autoApprove _ maxIterations
            0 _ r
            (by rw [show chatLoop env llmBackend modelName autoApprove _ maxIterations 0 _ = _
                  from by assumption]
                exact hr)).resolve_left (fun hx => by cases hx)
         exact ⟨hkey.1, by rw [hkey.2]; simp_all⟩)
  constructor
  · intro r hr htools
    rcases key r hr with ⟨hb, htl⟩
    by_cases ho : toLowerPy llmBackend = "ollama"
    · rw [if_pos ho] at htl
      rw [htl] at htools
      cases htools
    · rcases hb with h | h | h
      · exact Or.inl h
      · exact Or.inr h
      · exact absurd h ho
  · intro ho r hr
    rcases key r hr with ⟨_, htl⟩
    rw [if_pos ho] at htl
    exact htl

/-- C3 witness: one loop round against the `ollama` backend with
`use_tools = true` records exactly one outgoing request, and every
recorded request carries no tool definitions. -/
theorem C3_witness :
    (chatWithTools chatEnvNoToolCalls "q" "ollama" "llama3" 1 false true).2.length = 1 ∧
    ((chatWithTools chatEnvNoToolCalls "q" "ollama" "llama3" 1 false true).2.all
      fun r => decide (r.tools = none)) = true := by
  constructor
  · rfl
  · rw [List.all_eq_true]
    intro r hr
    simp [(C3_ollama_no_tools chatEnvNoToolCalls "q" "ollama" "llama3" 1 false true).2
      rfl r hr]

/-! ### C1: iteration exhaustion is a soft limit -/

theorem runToolCalls_always_ok (env : ChatEnv) (aa : Bool)
    (hexec : ∀ i name args b, ∃ w, env.execFeedback i name args b = Except.ok w) :
    ∀ (tcs : List LLMToolCall) (st : LoopState),
      ∃ st', runToolCalls env aa tcs st = Except.ok st' := by
  intro tcs
  induction tcs with
  | nil => intro st; exact ⟨st, rfl⟩
  | cons tc rest ih =>
    intro st
    obtain ⟨w, hw⟩ := hexec st.toolCallCount tc.name
      (match env.jsonLoads tc.arguments with
       | some d => d
       | none => parseToolArguments env.jsonLoads tc.arguments tc.name) aa
    rw [runToolCalls, hw]
    dsimp only
    exact ih _

theorem chatLoop_exhausts (env : ChatEnv) (llmBackend modelName : String)
    (aa : Bool) (tools : Option (List RDict))
    (hb : toLowerPy llmBackend = "groq" ∨ toLowerPy llmBackend = "openai" ∨
      toLowerPy llmBackend = "ollama")
    (hnet : ∀ n, ∃ c tcs, env.net n = Except.ok (c, tcs) ∧ tcs ≠ [])
    (hexec : ∀ i name args b, ∃ w, env.execFeedback i name args b = Except.ok w) :
    ∀ (fuel k : Nat) (st : LoopState),
      ∃ st', chatLoop env llmBackend modelName aa tools fuel k st =
          LoopOut.done st' (if k + fuel = 0 then none else some (k + fuel)) ∧
        st'.requests.length = st.requests.length + fuel ∧
        (fuel = 0 → st' = st) ∧
        (1 ≤ fuel → ∀ c tcs, env.net (k + fuel - 1) = Except.ok (c, tcs) →
          (st'.conversation.getLast?).map ConvEntry.content = some (c.getD "")) := by
  intro fuel
  induction fuel with
  | zero =>
    intro k st
    exact ⟨st, rfl, rfl, fun _ => rfl, fun h => absurd h (by omega)⟩
  | succ fuel ih =>
    intro k st
    obtain ⟨c0, tcs0, hnet0, htcs0⟩ := hnet k
    rw [show k + (fuel + 1) = (k + 1) + fuel from by omega]
    simp only [chatLoop]
    rw [if_pos hb, hnet0]
    dsimp only
    rw [if_neg htcs0]
    obtain ⟨st3, hrun⟩ := runToolCalls_always_ok env aa hexec tcs0 _
    rw [hrun]
    obtain ⟨st', heq', hlen', hz', hlast'⟩ := ih (k + 1) st3
    have hpres := (runToolCalls_preserves env aa tcs0 _).1 st3 hrun
    refine ⟨st', heq', ?_, ?_, ?_⟩
    · rw [hlen', hpres.1]
      dsimp only
      rw [List.length_append]
      simp
      omega
    · intro h0
      exact absurd h0 (by omega)
    · intro _ c tcs hnetlast
      by_cases hf : fuel = 0
      · subst hf
        have hst' : st' = st3 := hz' rfl
        have hck : env.net k = Except.ok (c, tcs) := by
          rw [show k + 1 + 0 - 1 = k from by omega] at hnetlast
          exact hnetlast
        have hc : c = c0 := by
          rw [hnet0] at hck
          exact ((Prod.mk.injEq _ _ _ _).mp (Except.ok.inj hck.symm)).1
        rw [hst', hpres.2, hc]
        dsimp only
        rw [List.getLast?_concat]
        rfl
      · apply hlast' (by omega) c tcs
        rw [show (k + 1) + fuel - 1 = k + 1 + fuel - 1 from rfl] at hnetlast
        exact hnetlast

/-- C1 (confirmed).  With `max_iterations ≥ 1`, a supported backend and an
LLM stub that requests at least one tool call in every response (all steps
succeeding), `chat_with_tools` makes exactly `max_iterations` outgoing LLM
calls, then returns `success = true`, `iterations_used = max_iterations`,
and the last assistant message's content (possibly empty, i.e. `content or
""`) as the answer — exhaustion is not reported as an error. -/
theorem C1_iteration_exhaustion (env : ChatEnv)
    (question llmBackend modelName : String) (maxIterations : Nat)
    (autoApprove useTools : Bool)
    (hiter : 1 ≤ maxIterations)
    (hb : toLowerPy llmBackend = "groq" ∨ toLowerPy llmBackend = "openai" ∨
      toLowerPy llmBackend = "ollama")
    (hsearch : ∃ sr, env.search question
      (if toLowerPy llmBackend = "ollama" then 3 else 5) true = Except.ok sr)
    (hmi : ∃ mi, env.machineInfo = Except.ok mi)
    (hprompt : ∀ q c b m u, ∃ p, env.buildSystemPrompt q c b m u = Except.ok p)
    (hnet : ∀ n, ∃ c tcs, env.net n = Except.ok (c, tcs) ∧ tcs ≠ [])
    (hexec : ∀ i name args b, ∃ w, env.execFeedback i name args b = Except.ok w) :
    (chatWithTools env question llmBackend modelName maxIterations
      autoApprove useTools).1.success = true ∧
    (chatWithTools env question llmBackend modelName maxIterations
      autoApprove useTools).1.iterationsUsed = some maxIterations ∧
    (chatWithTools env question llmBackend modelName maxIterations
      autoApprove useTools).2.length = maxIterations ∧
    (∀ c tcs, env.net (maxIterations - 1) = Except.ok (c, tcs) →
      (chatWithTools env question llmBackend modelName maxIterations
        autoApprove useTools).1.answer = c.getD "") := by
  obtain ⟨sr, hsr⟩ := hsearch
  obtain ⟨mi, hmi'⟩ := hmi
  obtain ⟨p, hp⟩ := hprompt question
    (buildContextString (buildContextDocs sr
      (if toLowerPy llmBackend = "ollama" then 3 else 5))) llmBackend mi useTools
  obtain ⟨st', heq', hlen', hz', hlast'⟩ :=
    chatLoop_exhausts env llmBackend modelName autoApprove _ hb hnet hexec maxIterations 0
      { messages :=
          { role := "system", content := p } ::
            env.history ++
              [{ role := "user",
                 content :=
                   if question ≠ "" then question
                   else "Hello, I need help with BeagleBoard development." }],
        conversation := [], toolResults := [], requests := [], toolCallCount := 0 }
  rw [Nat.zero_add, if_neg (show ¬ maxIterations = 0 by omega)] at heq'
  simp only [chatWithTools, hsr, hmi', hp]
  rw [heq']
  dsimp only
  rcases hL : st'.conversation.getLast? with _ | entry
  · exfalso
    obtain ⟨c, tcs, hcall, _⟩ := hnet (maxIterations - 1)
    have := hlast' (by omega) c tcs (by rw [Nat.zero_add]; exact hcall)
    rw [hL] at this
    cases this
  · refine ⟨rfl, rfl, ?_, ?_⟩
    · rw [hlen']
      simp
    · intro c tcs hcall
      have := hlast' (by omega) c tcs (by rw [Nat.zero_add]; exact hcall)
      rw [hL] at this
      simpa using this

/-- C1 witness: two exhausted iterations against a stub that always
requests a tool call — exactly two LLM calls, success, and the last
assistant content as the answer. -/
theorem C1_witness :
    (chatWithTools chatEnvAlwaysTools "q" "groq" "m" 2 false true).1.success = true ∧
    (chatWithTools chatEnvAlwaysTools "q" "groq" "m" 2 false true).1.iterationsUsed
      = some 2 ∧
    (chatWithTools chatEnvAlwaysTools "q" "groq" "m" 2 false true).2.length = 2 ∧
    (chatWithTools chatEnvAlwaysTools "q" "groq" "m" 2 false true).1.answer
      = "still working" := by
  have h := C1_iteration_exhaustion chatEnvAlwaysTools "q" "groq" "m" 2 false true
    (by omega) (Or.inl rfl) ⟨none, rfl⟩ ⟨[], rfl⟩
    (fun q c b m u => ⟨"system prompt", rfl⟩)
    (fun n => ⟨some "still working",
      [⟨some "call_a", "run_command", "\x7b\"command\": \"ls\"\x7d"⟩], rfl, by decide⟩)
    (fun i n a b => ⟨{ result := [("success", JVal.b true)],
                       requiresPermission := false,
                       userApproved := none }, rfl⟩)
  exact ⟨h.1, h.2.1, h.2.2.1, h.2.2.2 (some "still working")
    [⟨some "call_a", "run_command", "\x7b\"command\": \"ls\"\x7d"⟩] rfl⟩

end BeagleMind
